import Mathlib

/-!
Verification development for the vaulty secrets-vault server and client.

The Python sources are shallowly embedded: each Lean definition mirrors one
Python function or data shape from the repository (module and line references
are given in the doc comments).  Machine-level or third-party primitives that
the repository only calls (SHA-256 from hashlib, the Fernet cipher from the
cryptography package, UTF-8 codecs) are replaced by executable Lean models
that expose the same interface contract; every such model is marked
"Model of ..." in its doc comment.  All other definitions are direct
translations of the repository code, including its quirks.

Python strings are embedded as Lean `String`, but all operations on them are
implemented over the underlying character list (`String.data`) so that every
definition evaluates inside the kernel.  Python `datetime` values are embedded
as `Nat` tick counts, `None`-able fields as `Option`.
-/

namespace Vaulty

/-! ## Character-list string helpers (kernel-computable)

Each helper mirrors the Python string primitive named in its comment. -/

/-- Python `len(s)`. -/
def strLen (s : String) : Nat := s.data.length

/-- Python `s.lower()` (ASCII case folding, which is all the sources use). -/
def strLower (s : String) : String := String.mk (s.data.map Char.toLower)

/-- Python `s[:n]`. -/
def strTake (s : String) (n : Nat) : String := String.mk (s.data.take n)

/-- Python `s[n:]`. -/
def strDrop (s : String) (n : Nat) : String := String.mk (s.data.drop n)

/-- Python `s[-n:]` for `n ≤ len(s)`. -/
def strTakeRight (s : String) (n : Nat) : String := String.mk (s.data.drop (s.data.length - n))

/-- Python `'c' * n`. -/
def strRepeat (c : Char) (n : Nat) : String := String.mk (List.replicate n c)

/-- Boolean test that `p` is an initial segment of `cs`. -/
def listLeads : List Char → List Char → Bool
  | [], _ => true
  | _ :: _, [] => false
  | p :: ps, c :: cs => p == c && listLeads ps cs

/-- Python `s.startswith(p)`. -/
def strStarts (s p : String) : Bool := listLeads p.data s.data

/-- Python `needle in hay` (substring containment). -/
def containsSubList : List Char → List Char → Bool
  | [], n => n.isEmpty
  | c :: cs, n => listLeads n (c :: cs) || containsSubList cs n

/-- Python `needle in hay` on strings. -/
def containsSub (hay needle : String) : Bool := containsSubList hay.data needle.data

/-- Python `s.strip()`. -/
def strStrip (s : String) : String :=
  String.mk (((s.data.dropWhile Char.isWhitespace).reverse.dropWhile Char.isWhitespace).reverse)

/-- Split a character list at every occurrence of `sep`; mirrors Python
`s.split(sep)` for a one-character separator (so `[] ↦ [[]]`). -/
def splitCh (sep : Char) : List Char → List (List Char)
  | [] => [[]]
  | c :: rest =>
    let r := splitCh sep rest
    if c == sep then [] :: r
    else
      match r with
      | h :: t => (c :: h) :: t
      | [] => [[c]]

/-- Python `s.split('.')`. -/
def splitDots (s : String) : List String := (splitCh '.' s.data).map String.mk

/-- Python `s.count(c)` for a single character. -/
def countCh (s : String) (c : Char) : Nat := s.data.count c

/-- The lowercase hexadecimal alphabet used by the sources' character-class
checks (`'0123456789abcdef'`). -/
def hexAlphabet : List Char := "0123456789abcdef".data

/-! ## Data model (src/server/models.py)

Rows carry the columns the verified operations read or write; SQLAlchemy
bookkeeping (indexes, relationships) has no behavioural content and is not
embedded.  Tables are lists of rows and `query(...).first()` is `List.find?`. -/

/-- `projects` table row (src/server/models.py, class Project). -/
structure ProjectRow where
  id : String
  name : String
  description : Option String := none
  auto_approval_tag_pattern : Option String := none
  created_at : Nat := 0
deriving Repr, DecidableEq

/-- `master_tokens` table row (src/server/models.py, class MasterToken). -/
structure MasterTokenRow where
  id : String
  name : String
  token_hash : String
  last_used : Option Nat := none
  is_init_token : Bool := false
deriving Repr, DecidableEq

/-- `tokens` table row — project tokens (src/server/models.py, class Token). -/
structure TokenRow where
  id : String
  project_id : String
  name : String
  token_hash : String
  last_used : Option Nat := none
deriving Repr, DecidableEq

/-- `secrets` table row (src/server/models.py, class Secret).  The
`encrypted_value` column is the opaque byte string produced by the cipher. -/
structure SecretRow where
  id : String
  project_id : String
  key : String
  encrypted_value : List Nat
  created_at : Nat := 0
  updated_at : Nat := 0
deriving Repr, DecidableEq

/-- `devices` table row (src/server/models.py, class Device). -/
structure DeviceRow where
  id : String
  project_id : String
  device_id_hash : Option String := none
  name : String
  token_hash : Option String := none
  status : String := "pending"
  device_info : Option String := none
  created_at : Nat := 0
  updated_at : Nat := 0
  authorized_at : Option Nat := none
  authorized_by : Option String := none
  rejected_at : Option Nat := none
  rejected_by : Option String := none
deriving Repr, DecidableEq

/-- The relational store backing the server (the sqlite database). -/
structure DB where
  projects : List ProjectRow := []
  master_tokens : List MasterTokenRow := []
  tokens : List TokenRow := []
  secrets : List SecretRow := []
  devices : List DeviceRow := []
deriving Repr, DecidableEq

/-! ## Credential hashing and verification (src/server/auth.py) -/

/-- Model of `hashlib.sha256(token.encode()).hexdigest()` wrapped by
`hash_token` (src/server/auth.py lines 11-13).  The real SHA-256 digest is a
third-party primitive; the model keeps its two properties the sources rely
on: it is deterministic and injective (collision-freedom is assumed by the
spec).  Digest shape is irrelevant to every verified operation, which only
ever compares hashes for equality. -/
def hash_token (token : String) : String := "sha256#" ++ token

/-- Errors surfaced by the embedded request handlers, mirroring the
HTTPException status codes raised in src/server: 400, 401, 403, 404, plus the
`nameError` outcome for an unbound-local crash (Python `NameError`, surfaced
by FastAPI as an internal server error). -/
inductive ApiErr where
  | badRequest (detail : String)
  | authenticationFailed (detail : String)
  | accessDenied (detail : String)
  | notFound (detail : String)
  | nameError (missingLocal : String)
deriving Repr, DecidableEq

/-- The shape test from src/server/auth.py line 130:
`len(token_str) == 64 and all(c in '0123456789abcdef' for c in token_str.lower())`. -/
def isDeviceTokenShape (token_str : String) : Bool :=
  strLen token_str == 64 && (strLower token_str).data.all (fun c => hexAlphabet.contains c)

/-- The `master_token.last_used = datetime.utcnow(); db.commit()` side effect
(src/server/auth.py lines 122-124). -/
def touchMasterToken (db : DB) (mid : String) (now : Nat) : DB :=
  { db with master_tokens :=
      db.master_tokens.map (fun m => if m.id == mid then { m with last_used := some now } else m) }

/-- The `token.last_used = datetime.utcnow(); db.commit()` side effect
(src/server/auth.py lines 158-160). -/
def touchProjectToken (db : DB) (tid : String) (now : Nat) : DB :=
  { db with tokens :=
      db.tokens.map (fun t => if t.id == tid then { t with last_used := some now } else t) }

/-- `verify_project_access_by_id` (src/server/auth.py lines 101-162), the
scope check used by every project-scoped route.  Returns the verified
project id together with the possibly-updated database (`last_used` commits);
errors abort before any commit, as in the source.  The translation keeps the
source's control flow exactly — including the device branch's `return
project_id` that sits outside the `if device:` block (line 143). -/
def verify_project_access_by_id (db : DB) (token_str project_id : String) (now : Nat) :
    Except ApiErr (String × DB) :=
  let token_hash := hash_token token_str
  match db.master_tokens.find? (fun m => m.token_hash == token_hash) with
  | some mt => .ok (project_id, touchMasterToken db mt.id now)
  | none =>
    if isDeviceTokenShape token_str then
      match db.devices.find? (fun d =>
          d.device_id_hash == some (strLower token_str) && d.status == "authorized") with
      | some device =>
        if device.project_id != project_id then
          .error (.accessDenied "Access denied: device does not have access to this project")
        else
          .ok (project_id, db)
      | none =>
        -- source line 143: the `return project_id` is indented under the hex-shape
        -- branch, not under `if device:`, so an unmatched 64-hex credential falls
        -- through to a success return
        .ok (project_id, db)
    else
      match db.tokens.find? (fun t => t.token_hash == token_hash) with
      | none => .error (.authenticationFailed "Invalid token")
      | some token =>
        if token.project_id != project_id then
          .error (.accessDenied "Access denied: token does not have access to this project")
        else
          .ok (project_id, touchProjectToken db token.id now)

/-! ## Encryption at rest (src/server/encryption.py)

The repository defers the cryptography itself to the `cryptography` package
(PBKDF2-HMAC-SHA256 key derivation and the Fernet authenticated cipher) and
to the UTF-8 codec.  Those are third-party primitives, modelled here by an
executable keyed stream cipher over Unicode code points that honours the
package's interface contract (same-key decrypt inverts encrypt; wrong key or
malformed ciphertext fails).  The repository-owned structure is translated
directly: a key derived once at module load from `MASTER_KEY` with the fixed
salt `b'vaulty_salt_2024'` and 100000 iterations, shared by `encrypt_data`
and `decrypt_data`. -/

/-- Strict upper bound (2^21) on Unicode code points, the modulus of the
modelled cipher. -/
def CODE_BOUND : Nat := 2097152

/-- Model of one PBKDF2-HMAC-SHA256 round: mixes the password into the
running state. -/
def prfRound (password : List Nat) (state : List Nat) : List Nat :=
  (List.range 32).map (fun i =>
    (password.foldl (fun a b => (a * 131 + b + 7) % CODE_BOUND) i +
     state.foldl (fun a b => (a * 137 + b + 11) % CODE_BOUND) (i + 1)) % CODE_BOUND)

/-- Model of `PBKDF2HMAC(..., salt, iterations).derive(master_key)`:
iterated application of the round function to the salt. -/
def pbkdf2Model (master_key salt : List Nat) (iterations : Nat) : List Nat :=
  Nat.iterate (prfRound master_key) iterations salt

/-- The fixed salt `b'vaulty_salt_2024'` (src/server/encryption.py line 15). -/
def VAULTY_SALT : List Nat := "vaulty_salt_2024".data.map Char.toNat

/-- `derive_key` (src/server/encryption.py lines 10-20): PBKDF2 over the
master key with the fixed salt and 100000 iterations. -/
def derive_key (master_key : List Nat) : List Nat :=
  pbkdf2Model master_key VAULTY_SALT 100000

/-- The development-default master key bytes from src/server/config.py
(`b"default_key_32_bytes_long_for_dev_only!!"`). -/
def MASTER_KEY : List Nat := "default_key_32_bytes_long_for_dev_only!!".data.map Char.toNat

/-- One keystream element of the modelled cipher. -/
def keyByte (key : List Nat) (i : Nat) : Nat :=
  key.foldl (fun a b => (a * 131 + b) % CODE_BOUND) (i + 13) % CODE_BOUND

/-- Keystream of length `n` starting at offset `off`. -/
def keystream (key : List Nat) (off n : Nat) : List Nat :=
  match n with
  | 0 => []
  | n + 1 => keyByte key off :: keystream key (off + 1) n

/-- Key fingerprint prepended to ciphertexts: models Fernet's authentication
tag, whose check makes decryption under a different key fail. -/
def keyTag (key : List Nat) : Nat :=
  key.foldl (fun a b => (a * 131 + b + 3) % CODE_BOUND) 5

/-- Model of `Fernet(key).encrypt` on a code-point sequence. -/
def fernetEncrypt (key msg : List Nat) : List Nat :=
  keyTag key :: List.zipWith (fun m k => (m + k) % CODE_BOUND) msg (keystream key 0 msg.length)

/-- Model of `Fernet(key).decrypt`: fails (`InvalidToken`) unless the tag
matches the key. -/
def fernetDecrypt (key ct : List Nat) : Option (List Nat) :=
  match ct with
  | [] => none
  | t :: body =>
    if t = keyTag key then
      some (List.zipWith (fun c k => (c + (CODE_BOUND - k)) % CODE_BOUND) body
        (keystream key 0 body.length))
    else none

/-- Model of `str.encode('utf-8')`: the code-point sequence (byte-level UTF-8
framing is injective and inverted by the decoder, so code points model it
faithfully). -/
def encodeText (s : String) : List Nat := s.data.map Char.toNat

/-- Model of `bytes.decode('utf-8')`: fails on an out-of-range or surrogate
code point, as the codec does. -/
def decodeText (ns : List Nat) : Option String :=
  (ns.mapM (fun n =>
    if n < 55296 ∨ (57344 ≤ n ∧ n < 1114112) then some (Char.ofNat n) else none)).map String.mk

/-- The module-level `_fernet = Fernet(derive_key(MASTER_KEY))` key
(src/server/encryption.py line 24): derived once at process start. -/
def fernetKeyOnce : List Nat := derive_key MASTER_KEY

/-- `encrypt_data` (src/server/encryption.py lines 27-29). -/
def encrypt_data (data : String) : List Nat := fernetEncrypt fernetKeyOnce (encodeText data)

/-- `decrypt_data` (src/server/encryption.py lines 32-34); `none` models the
raised `InvalidToken`/decode error. -/
def decrypt_data (encrypted_data : List Nat) : Option String :=
  (fernetDecrypt fernetKeyOnce encrypted_data).bind decodeText

/-! ### Cipher round-trip lemmas -/

theorem keyByte_lt (key : List Nat) (i : Nat) : keyByte key i < CODE_BOUND :=
  Nat.mod_lt _ (by decide)

theorem keystream_length (key : List Nat) : ∀ (n off : Nat), (keystream key off n).length = n
  | 0, _ => rfl
  | n + 1, off => by simp [keystream, keystream_length key n]

theorem mix_unmix (m k : Nat) (hm : m < 2097152) (hk : k < 2097152) :
    ((m + k) % 2097152 + (2097152 - k)) % 2097152 = m := by omega

theorem stream_unmix (key : List Nat) :
    ∀ (msg : List Nat) (off : Nat), (∀ m ∈ msg, m < CODE_BOUND) →
      List.zipWith (fun c k => (c + (CODE_BOUND - k)) % CODE_BOUND)
        (List.zipWith (fun m k => (m + k) % CODE_BOUND) msg (keystream key off msg.length))
        (keystream key off msg.length) = msg := by
  intro msg
  induction msg with
  | nil => intro off _; rfl
  | cons m rest ih =>
    intro off hlt
    have hm : m < CODE_BOUND := hlt m (List.mem_cons_self m rest)
    have hk : keyByte key off < CODE_BOUND := keyByte_lt key off
    simp only [List.length_cons, keystream, List.zipWith_cons_cons]
    refine congrArg₂ List.cons ?_ (ih (off + 1) (fun x hx => hlt x (List.mem_cons_of_mem m hx)))
    have hB : CODE_BOUND = 2097152 := rfl
    rw [hB] at hm hk ⊢
    exact mix_unmix m (keyByte key off) hm hk

theorem char_toNat_lt (c : Char) : c.toNat < 1114112 := by
  have h := c.valid
  unfold Char.toNat
  rcases h with h | h <;> omega

theorem decodeText_encodeText (s : String) : decodeText (encodeText s) = some s := by
  have hmap : ∀ cs : List Char,
      (cs.map Char.toNat).mapM (fun n =>
        if n < 55296 ∨ (57344 ≤ n ∧ n < 1114112) then some (Char.ofNat n) else none) = some cs := by
    intro cs
    induction cs with
    | nil => rfl
    | cons c rest ih =>
      have hv := c.valid
      have hcond : c.toNat < 55296 ∨ (57344 ≤ c.toNat ∧ c.toNat < 1114112) := by
        unfold Char.toNat
        rcases hv with h | h
        · left; omega
        · right; omega
      simp only [List.map_cons, List.mapM_cons, hcond, if_pos, ih, Char.ofNat_toNat,
        Option.bind_eq_bind, Option.some_bind]
      rfl
  unfold decodeText encodeText
  rw [hmap s.data]
  rfl

theorem fernet_roundtrip (key msg : List Nat) (h : ∀ m ∈ msg, m < CODE_BOUND) :
    fernetDecrypt key (fernetEncrypt key msg) = some msg := by
  unfold fernetEncrypt fernetDecrypt
  have hlen : (List.zipWith (fun m k => (m + k) % CODE_BOUND) msg
      (keystream key 0 msg.length)).length = msg.length := by
    rw [List.length_zipWith, keystream_length key msg.length 0, Nat.min_self]
  dsimp only
  rw [if_pos rfl, hlen, stream_unmix key msg 0 h]

theorem encrypt_decrypt_roundtrip (p : String) : decrypt_data (encrypt_data p) = some p := by
  unfold decrypt_data encrypt_data
  rw [fernet_roundtrip fernetKeyOnce (encodeText p) ?bound]
  case bound =>
    intro m hm
    unfold encodeText at hm
    rcases List.mem_map.mp hm with ⟨c, _, rfl⟩
    have := char_toNat_lt c
    unfold CODE_BOUND
    omega
  simp only [Option.some_bind, decodeText_encodeText]

/-! ## JSON payloads

Request/response payloads travel through the logging pipeline as parsed JSON
(the middleware serialises dicts with `json.dumps` and the detector parses
them back, so the structured branch of every check is the one exercised). -/

/-- A parsed JSON value. -/
inductive Json where
  | null
  | bool (b : Bool)
  | num (n : Int)
  | str (s : String)
  | arr (elems : List Json)
  | obj (members : List (String × Json))
deriving Repr, BEq, Inhabited

/-- Python `d.get(k)` on a dict: first binding wins (dict keys are unique in
Python; the embedding keeps lookup order-faithful regardless). -/
def jlookup (ms : List (String × Json)) (k : String) : Option Json :=
  match ms with
  | [] => none
  | (k', v) :: rest => if k' == k then some v else jlookup rest k

/-- Python truthiness on a JSON value. -/
def jsonFalsy : Json → Bool
  | .null => true
  | .bool b => !b
  | .num n => n == 0
  | .str s => s == ""
  | .arr es => es.isEmpty
  | .obj ms => ms.isEmpty

mutual
/-- Does the needle occur as a substring anywhere in the serialised value
(keys or string leaves)?  Used to state what a persisted payload reveals. -/
def jsonContainsStr (needle : String) : Json → Bool
  | .str s => containsSub s needle
  | .arr es => jsonArrContains needle es
  | .obj ms => jsonObjContains needle ms
  | _ => false
def jsonArrContains (needle : String) : List Json → Bool
  | [] => false
  | e :: rest => jsonContainsStr needle e || jsonArrContains needle rest
def jsonObjContains (needle : String) : List (String × Json) → Bool
  | [] => false
  | (k, v) :: rest => containsSub k needle || jsonContainsStr needle v || jsonObjContains needle rest
end

/-! ## Exposure detector (src/server/exposure_detector.py)

`check_for_exposed_data` and its helpers, translated clause by clause.  The
payload arguments are the parsed JSON values (every call site passes
`json.dumps` output, so the `json.loads` branch is the one taken; the
plain-text regex fallback for unparseable payloads is unreachable from the
embedded pipeline and is not modelled). -/

/-- Details attached to a finding — the dicts built by `_get_secret_info` and
`_get_token_info`, as a tagged variant. -/
inductive FindingDetails where
  | secretHit (secret_key : String) (project_name : Option String) (secret_id : String)
  | masterTokenHit (token_id : String) (token_name : String)
  | projectTokenHit (token_id : String) (token_name : String) (project_name : Option String)
  | envMasterTokenHit
deriving Repr, BEq

/-- `ExposureFinding` (src/server/exposure_detector.py lines 17-23); `ftype`
embeds the source field `type`. -/
structure ExposureFinding where
  ftype : String
  location : String
  field_path : String
  details : FindingDetails
deriving Repr, BEq

/-- `ExposureReport` (src/server/exposure_detector.py lines 26-30). -/
structure ExposureReport where
  has_exposure : Bool := false
  findings : List ExposureFinding := []
deriving Repr, BEq

/-- Model of the MASTER_TOKEN environment variable (src/server/config.py):
an arbitrary fixed bearer string, mandatory at process start. -/
def MASTER_TOKEN : String := "env-master-bearer-model-value"

/-- `_get_secret_info` (src/server/exposure_detector.py lines 349-371): scan
every stored secret, decrypt it, and report key/project/id on a match;
decryption failures are skipped. -/
def _get_secret_info (value : String) (db : DB) : Option FindingDetails :=
  match db.secrets.find? (fun s => decrypt_data s.encrypted_value == some value) with
  | none => none
  | some s =>
    some (.secretHit s.key ((db.projects.find? (fun p => p.id == s.project_id)).map (·.name)) s.id)

/-- `_get_token_info` (src/server/exposure_detector.py lines 374-417): hash
the value and compare against master-token hashes, then project-token hashes,
then the raw environment master token. -/
def _get_token_info (value : String) (db : DB) : Option FindingDetails :=
  let value_hash := hash_token value
  match db.master_tokens.find? (fun m => m.token_hash == value_hash) with
  | some mt => some (.masterTokenHit mt.id mt.name)
  | none =>
    match db.tokens.find? (fun t => t.token_hash == value_hash) with
    | some pt =>
      some (.projectTokenHit pt.id pt.name
        ((db.projects.find? (fun p => p.id == pt.project_id)).map (·.name)))
    | none => if value == MASTER_TOKEN then some .envMasterTokenHit else none

/-- The token-bearing field names (src/server/exposure_detector.py line 217). -/
def token_field_names : List String :=
  ["token", "master_token", "api_token", "access_token", "bearer_token", "auth_token"]

mutual
/-- `_check_data_for_exposed_secrets` (src/server/exposure_detector.py lines
141-200), with its two recursion helpers for the dict loop and the list loop. -/
def _check_data_for_exposed_secrets (data : Json) (db : DB) (location field_path : String) :
    List ExposureFinding :=
  match data with
  | .obj members =>
    (match jlookup members "value" with
     | some (.str value) =>
       if !containsSub value "***" && !containsSub value "REDACTED" && strLen value > 0 then
         match _get_secret_info value db with
         | some info => [⟨"secret", location, field_path ++ ".value", info⟩]
         | none => []
       else []
     | _ => []) ++ secretsScanMembers members db location field_path
  | .arr elems => secretsScanElems elems db location field_path 0
  | _ => []

def secretsScanMembers (ms : List (String × Json)) (db : DB) (location field_path : String) :
    List ExposureFinding :=
  match ms with
  | [] => []
  | (key, value) :: rest =>
    (if key == "value" then []
     else
       match value with
       | .obj mems => _check_data_for_exposed_secrets (.obj mems) db location (field_path ++ "." ++ key)
       | .arr elems => _check_data_for_exposed_secrets (.arr elems) db location (field_path ++ "." ++ key)
       | .str s =>
         if strLen s > 10 && !containsSub s "***" && !containsSub s "REDACTED" then
           match _get_secret_info s db with
           | some info => [⟨"secret", location, field_path ++ "." ++ key, info⟩]
           | none => []
         else []
       | _ => []) ++ secretsScanMembers rest db location field_path

def secretsScanElems (es : List Json) (db : DB) (location field_path : String) (i : Nat) :
    List ExposureFinding :=
  match es with
  | [] => []
  | e :: rest =>
    _check_data_for_exposed_secrets e db location (field_path ++ "[" ++ toString i ++ "]")
      ++ secretsScanElems rest db location field_path (i + 1)
end

/-- The `token_fields` loop of `_check_data_for_exposed_tokens`
(src/server/exposure_detector.py lines 217-230). -/
def tokenFieldScan (names : List String) (ms : List (String × Json)) (db : DB)
    (location field_path : String) : List ExposureFinding :=
  match names with
  | [] => []
  | n :: rest =>
    (match jlookup ms n with
     | some (.str token) =>
       if !containsSub token "***" && !containsSub token "..." && strLen token > 8 then
         match _get_token_info token db with
         | some info => [⟨"token", location, field_path ++ "." ++ n, info⟩]
         | none => []
       else []
     | _ => []) ++ tokenFieldScan rest ms db location field_path

/-- The Authorization-header check of `_check_data_for_exposed_tokens`
(src/server/exposure_detector.py lines 232-251). -/
def headerTokenScan (ms : List (String × Json)) (db : DB) (location field_path : String) :
    List ExposureFinding :=
  match jlookup ms "headers" with
  | some (.obj hs) =>
    let a1 := (jlookup hs "Authorization").getD .null
    let auth_header := if jsonFalsy a1 then (jlookup hs "authorization").getD .null else a1
    match auth_header with
    | .str s =>
      if s == "" then []
      else
        match (if strStarts s "Bearer " then some (strStrip (strDrop s 7))
               else if strStarts s "Bearer" then some (strStrip (strDrop s 6))
               else none) with
        | some t =>
          if t != "" && !containsSub t "***" && !containsSub t "..." && strLen t > 8 then
            match _get_token_info t db with
            | some info => [⟨"token", location, field_path ++ ".headers.Authorization", info⟩]
            | none => []
          else []
        | none => []
    | _ => []
  | _ => []

mutual
/-- `_check_data_for_exposed_tokens` (src/server/exposure_detector.py lines
203-289), with its dict-loop and list-loop helpers.  The `original_token`
argument is carried exactly as in the source, which never reads it. -/
def _check_data_for_exposed_tokens (data : Json) (db : DB) (location field_path : String)
    (original_token : Option String) : List ExposureFinding :=
  match data with
  | .obj members =>
    tokenFieldScan token_field_names members db location field_path
      ++ headerTokenScan members db location field_path
      ++ tokensScanMembers members db location field_path original_token
  | .arr elems => tokensScanElems elems db location field_path original_token 0
  | _ => []

def tokensScanMembers (ms : List (String × Json)) (db : DB) (location field_path : String)
    (original_token : Option String) : List ExposureFinding :=
  match ms with
  | [] => []
  | (key, value) :: rest =>
    (if (token_field_names ++ ["headers"]).contains key then []
     else
       match value with
       | .obj mems =>
         _check_data_for_exposed_tokens (.obj mems) db location (field_path ++ "." ++ key) original_token
       | .arr elems =>
         _check_data_for_exposed_tokens (.arr elems) db location (field_path ++ "." ++ key) original_token
       | .str s =>
         if strLen s > 10 && !containsSub s "***" && !containsSub s "..." then
           match _get_token_info s db with
           | some info => [⟨"token", location, field_path ++ "." ++ key, info⟩]
           | none => []
         else []
       | _ => []) ++ tokensScanMembers rest db location field_path original_token

def tokensScanElems (es : List Json) (db : DB) (location field_path : String)
    (original_token : Option String) (i : Nat) : List ExposureFinding :=
  match es with
  | [] => []
  | e :: rest =>
    _check_data_for_exposed_tokens e db location (field_path ++ "[" ++ toString i ++ "]") original_token
      ++ tokensScanElems rest db location field_path original_token (i + 1)
end

/-- `check_for_exposed_data` (src/server/exposure_detector.py lines 48-138):
scan the request for secrets, the response for secrets and tokens, and set
`has_exposure` from the response-located findings only (line 137). -/
def check_for_exposed_data (request_data response_data : Option Json) (db : DB)
    (original_token : Option String) : ExposureReport :=
  let reqFindings :=
    match request_data with
    | some j => _check_data_for_exposed_secrets j db "request" "request"
    | none => []
  let respFindings :=
    match response_data with
    | some j =>
      _check_data_for_exposed_secrets j db "response" "response"
        ++ _check_data_for_exposed_tokens j db "response" "response" original_token
    | none => []
  let findings : List ExposureFinding := reqFindings ++ respFindings
  let response_findings : List ExposureFinding :=
    match response_data with
    | some _ => findings.filter (fun f => f.location == "response")
    | none => []
  { has_exposure := !response_findings.isEmpty, findings := findings }

/-! ## Confidential-field metadata (src/server/confidential_tracker.py)

A response that is known to carry confidential values travels with a
`_confidential_fields` list.  The embedding carries that list alongside the
response body as a `List ConfField` (the reserved dict entry itself, which the
logger strips before storage, is modelled out-of-band). -/

/-- One `_confidential_fields` entry (`ConfidentialField`,
src/server/confidential_tracker.py lines 10-15); `ftype` embeds `type`. -/
structure ConfField where
  path : String
  ftype : String
  details : FindingDetails
deriving Repr, BEq

/-- The path walk shared by `check_exposure_from_metadata`
(src/server/confidential_tracker.py lines 90-98) and the logger's inline copy
(src/server/activity_logger.py lines 420-428): descend through dict keys; any
other shape either sets `current = None` or raises inside the per-field
`try`, which both walkers catch and treat as "not exposed". -/
def checkNav : Json → List String → Option Json
  | j, [] => some j
  | .obj ms, p :: ps =>
    match jlookup ms p with
    | some v => checkNav v ps
    | none => none
  | _, _ :: _ => none

/-- `is_already_redacted` (src/server/confidential_tracker.py lines 104-107). -/
def isAlreadyRedactedTracker (s : String) : Bool :=
  s == "***EXPOSED***" || s == "***REDACTED***" || s == "**** EXPOSED ****" ||
  (countCh s '*' > 3 && strLen s > 10)

/-- The per-field loop of `check_exposure_from_metadata`
(src/server/confidential_tracker.py lines 85-117). -/
def metaFindings (response_data : Json) : List ConfField → List ExposureFinding
  | [] => []
  | f :: rest =>
    (match checkNav response_data (splitDots f.path) with
     | some (.str s) =>
       if !isAlreadyRedactedTracker s then
         [⟨f.ftype, "response", "response." ++ f.path, f.details⟩]
       else []
     | _ => []) ++ metaFindings response_data rest

/-- `check_exposure_from_metadata` (src/server/confidential_tracker.py lines
70-120) on a response body and its metadata list. -/
def check_exposure_from_metadata (response_data : Json) (meta : List ConfField) : ExposureReport :=
  let findings := metaFindings response_data meta
  { has_exposure := !findings.isEmpty, findings := findings }

/-! ## Redaction and masking (src/server/activity_logger.py) -/

/-- Python `d[k] = v` when `k` is already present: replace in place. -/
def setKeyFirst (ms : List (String × Json)) (k : String) (v : Json) : List (String × Json) :=
  match ms with
  | [] => []
  | (k', v') :: rest => if k' == k then (k', v) :: rest else (k', v') :: setKeyFirst rest k v

/-- Python `d[k] = v`: overwrite in place if present, else append. -/
def setKeyAppend (ms : List (String × Json)) (k : String) (v : Json) : List (String × Json) :=
  if (jlookup ms k).isSome then setKeyFirst ms k v else ms ++ [(k, v)]

/-- Model of Python `int(s)` on a string: optional surrounding whitespace,
optional sign, at least one digit. -/
def parseInt (s : String) : Option Int :=
  let cs := (strStrip s).data
  let (neg, digits) :=
    match cs with
    | '-' :: rest => (true, rest)
    | '+' :: rest => (false, rest)
    | rest => (false, rest)
  if digits.isEmpty || !digits.all Char.isDigit then none
  else
    let n : Nat := digits.foldl (fun acc c => acc * 10 + (c.toNat - 48)) 0
    some (if neg then -(n : Int) else (n : Int))

/-- The bracket parse of one path part in `redact_exposed_values`
(src/server/activity_logger.py lines 111-113): `key = part.split('[')[0]`,
`index = int(part.split('[')[1].split(']')[0])`. -/
def bracketParse (part : String) : Option (String × String) :=
  if containsSub part "[" && containsSub part "]" then
    match splitCh '[' part.data with
    | k :: r1 :: _ => some (String.mk k, String.mk ((splitCh ']' r1).headD []))
    | _ => none
  else none

/-- One field walk of `redact_exposed_values` (src/server/activity_logger.py
lines 108-137): navigate the already-split path and replace the addressed
value with the sentinel.  `.ok` with the input unchanged models the `break`
cases; `.error` models an uncaught Python exception (bad `int(...)`, an
out-of-range negative index, or a membership/index operation on a
non-container), which aborts the whole logging call. -/
def setPathGo (j : Json) : List String → Except Unit Json
  | [] => .ok j
  | part :: rest =>
    match bracketParse part with
    | some (key, idxStr) =>
      match parseInt idxStr with
      | none => .error ()
      | some idx =>
        match j with
        | .obj ms =>
          match jlookup ms key with
          | some (.arr elems) =>
            if idx < (elems.length : Int) then
              let eff : Int := if idx < 0 then (elems.length : Int) + idx else idx
              if eff < 0 then .error ()
              else
                let n := eff.toNat
                match rest with
                | [] => .ok (.obj (setKeyFirst ms key (.arr (elems.set n (.str "***EXPOSED***")))))
                | _ =>
                  (setPathGo (elems.getD n .null) rest).map
                    (fun c' => .obj (setKeyFirst ms key (.arr (elems.set n c'))))
            else .ok j
          | _ => .ok j
        | .arr elems => if elems.contains (.str key) then .error () else .ok j
        | .str s => if containsSub s key then .error () else .ok j
        | _ => .error ()
    | none =>
      match j with
      | .obj ms =>
        match jlookup ms part with
        | some v =>
          match rest with
          | [] => .ok (.obj (setKeyFirst ms part (.str "***EXPOSED***")))
          | _ =>
            match v with
            | .obj mems => (setPathGo (.obj mems) rest).map (fun v' => .obj (setKeyFirst ms part v'))
            | .arr elems => (setPathGo (.arr elems) rest).map (fun v' => .obj (setKeyFirst ms part v'))
            | _ => .ok j
        | none => .ok j
      | .arr elems => if elems.contains (.str part) then .error () else .ok j
      | .str s => if containsSub s part then .error () else .ok j
      | _ => .error ()

/-- The field loop of `redact_exposed_values` (src/server/activity_logger.py
lines 100-137), processing fields in list order. -/
def redactFold (j : Json) : List ConfField → Except Unit Json
  | [] => .ok j
  | f :: rest =>
    match setPathGo j (splitDots f.path) with
    | .ok j' => redactFold j' rest
    | .error e => .error e

/-- `redact_exposed_values` (src/server/activity_logger.py lines 81-139). -/
def redact_exposed_values (data : Json) (confidential_fields : List ConfField) : Except Unit Json :=
  if confidential_fields.isEmpty then .ok data
  else redactFold data confidential_fields

/-- Python `s.replace(old, new)` (all occurrences, left to right,
non-overlapping); fuelled structural recursion over the haystack. -/
def replaceSubGo (needle repl : List Char) : Nat → List Char → List Char
  | 0, hay => hay
  | fuel + 1, hay =>
    match hay with
    | [] => []
    | c :: cs =>
      if listLeads needle hay then repl ++ replaceSubGo needle repl fuel (hay.drop needle.length)
      else c :: replaceSubGo needle repl fuel cs

/-- Python `s.replace(old, new)` on strings (the sources only call it with a
nonempty `old`). -/
def strReplace (hay needle repl : String) : String :=
  if needle.data.isEmpty then hay
  else String.mk (replaceSubGo needle.data repl.data hay.data.length hay.data)

/-- The Authorization-header masking of `mask_tokens_in_data`
(src/server/activity_logger.py lines 29-72). -/
def maskAuthHeader (ms : List (String × Json)) : List (String × Json) :=
  match jlookup ms "headers" with
  | some (.obj hs) =>
    match hs.find? (fun kv => strLower kv.1 == "authorization") with
    | some (auth_key, .str auth_value) =>
      let auth_lower := strStrip (strLower auth_value)
      match (if strStarts auth_lower "bearer " then some (strStrip (strDrop auth_value 7))
             else if strStarts auth_lower "bearer" then some (strStrip (strDrop auth_value 6))
             else none) with
      | some token =>
        if strLen token > 0 then
          let is_already_masked := strStarts token "*" && strLen token > 8 &&
            !((strTake token 4).data.any Char.isAlphanum)
          if !is_already_masked then
            let newVal :=
              if strLen token > 8 then
                "Bearer " ++ strTake token 4 ++ strRepeat '*' (max 8 (strLen token - 8)) ++
                  strTakeRight token 4
              else "Bearer " ++ strRepeat '*' (strLen token)
            setKeyFirst ms "headers" (.obj (setKeyFirst hs auth_key (.str newVal)))
          else ms
        else ms
      | none => ms
    | _ => ms
  | _ => ms

mutual
/-- `_mask_tokens_in_dict` (src/server/activity_logger.py lines 142-182),
with its member/element recursion helpers. -/
def _mask_tokens_in_dict (data : Json) : Json :=
  match data with
  | .obj ms => .obj (maskDictMembers ms)
  | .arr es => .arr (maskListElems es)
  | other => other

def maskDictMembers : List (String × Json) → List (String × Json)
  | [] => []
  | (key, value) :: rest =>
    (key,
      if token_field_names.contains (strLower key) then
        if value == Json.str "***EXPOSED***" then .str "***EXPOSED***"
        else
          match value with
          | .str s =>
            if strLen s > 8 then
              .str (strTake s 4 ++ strRepeat '*' (max 8 (strLen s - 8)) ++ strTakeRight s 4)
            else .str (strRepeat '*' (strLen s))
          | other => other
      else if strLower key == "value" &&
          (match value with | .str s => strLen s > 0 | _ => false) then
        if value == Json.str "***EXPOSED***" then .str "***EXPOSED***" else .str "***REDACTED***"
      else
        match value with
        | .obj mems => _mask_tokens_in_dict (.obj mems)
        | .arr elems => _mask_tokens_in_dict (.arr elems)
        | other => other) :: maskDictMembers rest

def maskListElems : List Json → List Json
  | [] => []
  | e :: rest => _mask_tokens_in_dict e :: maskListElems rest
end

/-- `mask_tokens_in_data` (src/server/activity_logger.py lines 15-78):
deep-copy semantics are implicit in the functional embedding. -/
def mask_tokens_in_data (data : Json) : Json :=
  match data with
  | .obj ms =>
    let ms1 := maskAuthHeader ms
    match jlookup ms1 "body" with
    | some (.obj bs) => .obj (setKeyFirst ms1 "body" (_mask_tokens_in_dict (.obj bs)))
    | _ => .obj ms1
  | other => other

/-! ## The activity-log payload pipeline (src/server/activity_logger.py) -/

/-- The logger's inline per-field exposure test
(src/server/activity_logger.py lines 417-435): the field is exposed when its
path resolves to a string other than the sentinel. -/
def loggerFieldExposed (response_data : Json) (f : ConfField) : Bool :=
  match checkNav response_data (splitDots f.path) with
  | some (.str s) => s != "***EXPOSED***"
  | _ => false

/-- The response summarisation step (src/server/activity_logger.py lines
479-482): dict values that are lists longer than 10 are truncated to 5 items
plus an ellipsis marker. -/
def truncListVals : List (String × Json) → List (String × Json)
  | [] => []
  | (k, v) :: rest =>
    (k,
      match v with
      | .arr es =>
        if es.length > 10 then
          .arr (es.take 5 ++ [.str ("... (" ++ toString (es.length - 5) ++ " more items)")])
        else .arr es
      | other => other) :: truncListVals rest

/-- The body summarisation step (src/server/activity_logger.py lines
470-482). -/
def summarizeBody (rd : Json) : Json :=
  match rd with
  | .obj ms =>
    match jlookup ms "body" with
    | some b =>
      if jsonFalsy b then rd
      else
        match b with
        | .arr es =>
          if es.length > 10 then
            .obj (setKeyFirst ms "body" (.obj
              [("_summary", .str ("List with " ++ toString es.length ++ " items")),
               ("_preview", .arr (es.take 5))]))
          else rd
        | .obj bs => .obj (setKeyFirst ms "body" (.obj (truncListVals bs)))
        | _ => rd
    | none => rd
  | _ => rd

/-- The final shaping of the stored response payload
(src/server/activity_logger.py lines 485-490): wrap a non-dict body, then
record the exposure flag (the `_confidential_fields` entry, modelled
out-of-band, is deleted here in the source). -/
def finalizeResponse (rd : Json) (flag : Bool) : Json :=
  match rd with
  | .obj ms => .obj (setKeyAppend ms "exposed_confidential_data" (.bool flag))
  | other => .obj [("body", other), ("exposed_confidential_data", .bool flag)]

/-- The fallback conversion of detector findings into redaction metadata
(src/server/activity_logger.py lines 452-459). -/
def findingToConfField (f : ExposureFinding) : ConfField :=
  ⟨strReplace (strReplace f.field_path "response." "") "request." "", f.ftype, f.details⟩

/-- The payload-processing core of `_log_activity_sync_safe`
(src/server/activity_logger.py lines 387-509): masks the request payload,
determines the exposure flag (metadata fast path, else the database fallback
scan), redacts the response, summarises large bodies, and shapes the stored
response.  Returns `(stored request, stored response, exposed flag)`;
`.error` models an uncaught exception in the redaction phase, after which no
activity row is written at all (src/server/activity_logger.py line 525).
JSON serialisation and the 10KB truncation of the stored strings are omitted:
both are applied after the payloads are final and can only shorten them.
`headers_auth` is the request's Authorization header, if any. -/
def logActivityPayloads (db : DB) (headers_auth : Option String) (request_data : Option Json)
    (response_data : Option (Json × List ConfField)) :
    Except Unit (Option Json × Option Json × Bool) :=
  let request_stored : Option Json := request_data.map mask_tokens_in_data
  let original_token : Option String :=
    match headers_auth with
    | some a => if strStarts a "Bearer " then some (strDrop a 7) else none
    | none => none
  match response_data with
  | some (rj, meta) =>
    match rj with
    | .obj ms =>
      if (ms : List (String × Json)).isEmpty then
        -- an empty dict fails the `if response_data and isinstance(...)` gate
        -- and the later `if response_data:` gate alike
        .ok (request_stored, some (.obj [("exposed_confidential_data", .bool false)]), false)
      else
        let fp : Bool × List ConfField :=
          if !meta.isEmpty then
            (meta.any (loggerFieldExposed (.obj ms)), meta)
          else
            let report := check_for_exposed_data request_data (some (.obj ms)) db original_token
            (report.has_exposure,
             if report.has_exposure then report.findings.map findingToConfField else [])
        let flag := fp.1
        let conf_fields := fp.2
        match (if flag && !conf_fields.isEmpty
               then redact_exposed_values (.obj ms) conf_fields
               else .ok (.obj ms)) with
        | .error e => .error e
        | .ok redacted =>
          .ok (request_stored, some (finalizeResponse (summarizeBody redacted) flag), flag)
    | other =>
      -- non-dict responses skip the exposure block; the storage `try` then
      -- fails on `.get("body")` (caught, line 500) unless the value is falsy
      if jsonFalsy other then
        .ok (request_stored, some (.obj [("exposed_confidential_data", .bool false)]), false)
      else
        .ok (request_stored,
          some (.obj [("error", .str "Failed to serialize response data"),
                      ("exposed_confidential_data", .bool false)]), false)
  | none => .ok (request_stored, some (.obj [("exposed_confidential_data", .bool false)]), false)

/-! ## Secret storage (src/server/api/routes/secrets.py) -/

/-- Replace the first list element satisfying `p` — the effect of mutating the
row returned by `query(...).first()` and committing. -/
def updateFirst {α : Type} (p : α → Bool) (f : α → α) : List α → List α
  | [] => []
  | x :: xs => if p x then f x :: xs else x :: updateFirst p f xs

/-- `create_secret` (src/server/api/routes/secrets.py lines 18-48), after the
`get_project_with_access` dependency has resolved the project and verified
scope: encrypt the value, then update the existing `(project, key)` row in
place or insert a new row.  `freshId` models the generated 16-hex row id,
`now` the commit timestamp. -/
def create_secret (db : DB) (project : ProjectRow) (key value : String) (now : Nat)
    (freshId : String) : DB × SecretRow :=
  let encrypted_value := encrypt_data value
  match db.secrets.find? (fun s => s.project_id == project.id && s.key == key) with
  | some existing =>
    let newSecrets :=
      updateFirst (fun s => s.project_id == project.id && s.key == key)
        (fun s => { s with encrypted_value := encrypted_value, updated_at := now }) db.secrets
    ({ db with secrets := newSecrets },
     { existing with encrypted_value := encrypted_value, updated_at := now })
  | none =>
    let row : SecretRow :=
      { id := freshId, project_id := project.id, key := key,
        encrypted_value := encrypted_value, created_at := now, updated_at := now }
    ({ db with secrets := db.secrets ++ [row] }, row)

/-! ## Token routes (src/server/api/routes/tokens.py and
src/server/api/routes/master_tokens.py) -/

/-- `mask_token` (src/server/api/utils.py lines 88-96): first 4 characters,
bullet-masked middle, last 4 characters; all bullets for short tokens. -/
def mask_token (token : String) : String :=
  if strLen token ≤ 8 then strRepeat '•' (strLen token)
  else strTake token 4 ++ strRepeat '•' (strLen token - 8) ++ strTakeRight token 4

/-- `create_token` (src/server/api/routes/tokens.py lines 17-47), after the
`get_project_with_access` dependency has resolved the project and verified
scope.  `token_str` stands for the freshly generated random token
(`Token.generate_token`, a third-party randomness primitive) and `freshId`
for the generated row id.  The raw token string leaves only in the response,
never in the row: the row stores its hash and its masked name. -/
def create_token (db : DB) (project : ProjectRow) (token_str : String)
    (freshId : String) : DB × TokenRow :=
  let db_token : TokenRow :=
    { id := freshId, project_id := project.id, name := mask_token token_str,
      token_hash := hash_token token_str }
  ({ db with tokens := db.tokens ++ [db_token] }, db_token)

/-- `create_master_token` (src/server/api/routes/master_tokens.py lines
18-52), after `verify_master_token` has passed: the new row stores the hash
and the masked name; `is_init_token` is set only when the table was empty. -/
def create_master_token (db : DB) (token_str : String) (freshId : String) :
    DB × MasterTokenRow :=
  let is_init := db.master_tokens.length == 0
  let row : MasterTokenRow :=
    { id := freshId, name := mask_token token_str,
      token_hash := hash_token token_str, is_init_token := is_init }
  ({ db with master_tokens := db.master_tokens ++ [row] }, row)

/-- `rotate_master_token` (src/server/api/routes/master_tokens.py lines
123-166), after `verify_master_token` has passed: delete the row with the
given id (404 when absent), then insert a fresh row holding the hash and the
masked name of the newly generated token. -/
def rotate_master_token (db : DB) (token_id : String) (token_str : String)
    (freshId : String) : Except ApiErr (DB × MasterTokenRow) :=
  match db.master_tokens.find? (fun m => m.id == token_id) with
  | none => .error (.notFound "Master token not found")
  | some _ =>
    let remaining := db.master_tokens.filter (fun m => !(m.id == token_id))
    let row : MasterTokenRow :=
      { id := freshId, name := mask_token token_str,
        token_hash := hash_token token_str, is_init_token := false }
    .ok ({ db with master_tokens := remaining ++ [row] }, row)

/-! ## Device routes (src/server/api/routes/devices.py) -/

/-- `DeviceCreate` (src/server/schemas.py lines 121-134).  `tags = []` embeds
the `None`/empty cases, which Python treats identically (both falsy). -/
structure DeviceCreate where
  name : String
  device_id : Option String := none
  project_name : String
  user_agent : String
  working_directory : String
  tags : List String := []
  description : Option String := none
deriving Repr, DecidableEq

/-- `register_device` (src/server/api/routes/devices.py lines 19-159).  The
reachable control flow ends early: the block that assigns the local
`device_id` (lines 61-68, including the 32-hex validation) is indented inside
the `if not device_data.device_id:` branch after its `raise`, so it never
runs, and the read `hash_token(device_id)` at line 72 raises `NameError` for
every request that supplies a device id.  Everything after line 72 — the
duplicate-hash lookup, the auto-approval tag matching, and the row insert —
is unreachable. -/
def register_device (db : DB) (device_data : DeviceCreate) : Except ApiErr (DB × DeviceRow) :=
  if device_data.project_name == "" then
    .error (.badRequest "project_name is required for device registration.")
  else
    match db.projects.find? (fun p => p.name == device_data.project_name) with
    | none => .error (.notFound ("Project " ++ device_data.project_name ++ " not found"))
    | some _project =>
      if device_data.device_id.getD "" == "" then
        .error (.badRequest "device_id is required.")
      else
        .error (.nameError "device_id")

/-- `get_device_by_id_no_auth` (src/server/api/dependencies.py lines 59-85):
resolve the project by name and the device by id with no credential check. -/
def get_device_by_id_no_auth (db : DB) (project_name device_id : String) :
    Except ApiErr DeviceRow :=
  match db.projects.find? (fun p => p.name == project_name) with
  | none => .error (.notFound "Project not found")
  | some project =>
    match db.devices.find? (fun d => d.id == device_id && d.project_id == project.id) with
    | none => .error (.notFound "Device not found")
    | some device => .ok device

/-- The `GET /api/projects/.../devices/...` route `get_device`
(src/server/api/routes/devices.py lines 183-188): returns exactly what the
no-auth dependency resolves. -/
def get_device_route (db : DB) (project_name device_id : String) : Except ApiErr DeviceRow :=
  get_device_by_id_no_auth db project_name device_id

/-! ## Client registration polling protocol (src/client/register.py)

The polling phase of `register_device` (lines 155-267), embedded over an
explicit environment: what each status poll observes, and what the final
reject attempt would return.  Timing is abstracted to the tick arithmetic the
source itself performs. -/

/-- One observation of `GET .../devices/{id}`:  either a transport error
(`requests.RequestException`, which the loop logs and skips) or an HTTP
response with the device's `status` field (absent/`none` for bodies without
one). -/
inductive PollObs where
  | connError
  | http (status_code : Nat) (statusField : Option String)
deriving Repr

/-- The environment of one protocol run. -/
structure PollEnv where
  max_wait_time : Nat := 300
  poll_interval : Nat := 1
  auth_token : Option String := none
  polls : Nat → PollObs
  /-- Status the server would answer to the timeout `PATCH .../reject`
  attempt; any value other than 204 (including a transport error, whose
  handler is `except: pass`) leaves the pending-status report in force. -/
  reject_status_code : Nat := 204

/-- The dictionary the client protocol returns, restricted to the keys the
reports differ in: `success`, top-level `status`, the `status` inside the
`device` sub-dictionary, `wait_time_seconds`, and `note`. -/
structure RegOutcome where
  success : Bool
  status : Option String := none
  device_status : Option String := none
  wait_time_seconds : Nat
  note : String
deriving Repr, DecidableEq

/-- Result of the polling `while` loop alone. -/
inductive PollPhase where
  | returned (r : RegOutcome)
  | timedOut (elapsed : Nat)
  | fuelOut
deriving Repr, DecidableEq

/-- The `while elapsed_time < max_wait_time` loop (src/client/register.py
lines 158-230).  `k` counts polls, `elapsed` the accumulated wait; the fuel
only rules out the genuinely divergent `poll_interval = 0` runs. -/
def pollLoop (env : PollEnv) : Nat → Nat → Nat → PollPhase
  | 0, _, elapsed => if elapsed < env.max_wait_time then .fuelOut else .timedOut elapsed
  | fuel + 1, k, elapsed =>
    if elapsed < env.max_wait_time then
      let elapsed' := elapsed + env.poll_interval
      match env.polls k with
      | .connError => pollLoop env fuel (k + 1) elapsed'
      | .http code st =>
        if code == 200 then
          if st == some "authorized" then
            .returned { success := true, device_status := some "authorized",
                        wait_time_seconds := elapsed',
                        note := "Device is now authorized and ready to use." }
          else if st == some "rejected" then
            .returned { success := false, device_status := some "rejected",
                        wait_time_seconds := elapsed',
                        note := "Device registration was rejected." }
          else pollLoop env fuel (k + 1) elapsed'
        else if code == 404 then
          .returned { success := false, status := some "rejected",
                      wait_time_seconds := elapsed',
                      note := "Device was deleted or rejected from the server." }
        else pollLoop env fuel (k + 1) elapsed'
    else .timedOut elapsed

/-- The pending report of the timeout tail (src/client/register.py lines
257-267).  The source note ends with a quoted auth_token hint; the quotes are
dropped here, the words are otherwise verbatim. -/
def pendingOutcome (env : PollEnv) (elapsed : Nat) : RegOutcome :=
  { success := false, status := some "pending", wait_time_seconds := elapsed,
    note := "Device registration timed out. Device is still pending and needs to be manually rejected or authorized." ++
      (if env.auth_token.isSome then ""
       else " Provide an auth_token to enable automatic rejection on timeout.") }

/-- The polling protocol of the client `register_device` after registration
returned a pending device (src/client/register.py lines 155-267): run the
loop, and on exhaustion attempt the automatic reject when an auth token is
held.  `none` only for the divergent `poll_interval = 0` runs (fuel
exhaustion). -/
def register_poll_protocol (env : PollEnv) : Option RegOutcome :=
  match pollLoop env (env.max_wait_time + 1) 0 0 with
  | .fuelOut => none
  | .returned r => some r
  | .timedOut elapsed =>
    some (match env.auth_token with
      | some _ =>
        if env.reject_status_code == 204 then
          { success := false, status := some "rejected", wait_time_seconds := elapsed,
            note := "Device registration timed out. Please try again and authorize the device promptly." }
        else pendingOutcome env elapsed
      | none => pendingOutcome env elapsed)

/-! ## Claim theorems -/

/-- Claim C3: for every plaintext string `p`, decrypting the result of
encrypting `p` with the vault's cipher (whose key is derived once from the
master key) returns `p`. -/
theorem c3_decrypt_encrypt_roundtrip (p : String) : decrypt_data (encrypt_data p) = some p :=
  encrypt_decrypt_roundtrip p

/-- Store exercised by the claim C1 evaluation: one master token, one project
token bound to project `p1`, one authorized device bound to `p1`. -/
def c1DB : DB :=
  { projects := [{ id := "p1id", name := "p1" }, { id := "p2id", name := "p2" }],
    master_tokens := [{ id := "m1", name := "admin", token_hash := hash_token "master-secret-bearer" }],
    tokens := [{ id := "t1", project_id := "p1id", name := "ci", token_hash := hash_token "project-bearer-1" }],
    secrets := [],
    devices := [{ id := "d1", project_id := "p1id",
                  device_id_hash := some (strRepeat 'a' 64), name := "dev-1",
                  status := "authorized" }] }

/-- Claim C1: scope verification is claimed to fail with AuthenticationFailed
when a credential matches no stored master token, project token, or
authorized device.  The code does not: a 64-character lowercase-hex bearer
string that matches nothing returns successfully and grants access to any
requested project, because the success return in the device branch sits
outside the `if device:` guard.  This theorem evaluates the embedded source
at such an input: the credential is a 64-hex string matching no stored hash
or device, the target is project `p2id`, and the call grants access. -/
theorem c1_unmatched_hex_credential_is_granted_access :
    c1DB.master_tokens.all (fun m => m.token_hash != hash_token (strRepeat '0' 64)) = true ∧
    c1DB.tokens.all (fun t => t.token_hash != hash_token (strRepeat '0' 64)) = true ∧
    c1DB.devices.all (fun d => d.device_id_hash != some (strLower (strRepeat '0' 64))) = true ∧
    verify_project_access_by_id c1DB (strRepeat '0' 64) "p2id" 5 = .ok ("p2id", c1DB) :=
  ⟨rfl, rfl, rfl, rfl⟩

/-- The client-supplied 32-hex device fingerprint used by the claim C6
evaluation. -/
def c6DeviceId : String := strRepeat 'a' 32

/-- Device row already registered for project `P` under `hash(c6DeviceId)`,
which an idempotent re-registration would have to return. -/
def c6ExistingDevice : DeviceRow :=
  { id := "d6", project_id := "p6id", device_id_hash := some (hash_token c6DeviceId),
    name := "dev-6", status := "pending" }

/-- Store exercised by the claim C6 evaluation. -/
def c6DB : DB :=
  { projects := [{ id := "p6id", name := "P" }], devices := [c6ExistingDevice] }

/-- Claim C6: re-registering a device whose `hash(device_id)` already exists
for the same project is claimed to be idempotent and return the existing
row.  The code never reaches the duplicate check: the local `device_id` is
only assigned in dead code (src/server/api/routes/devices.py lines 61-68 sit
after the `raise` of the `if not device_data.device_id:` branch), so line 72
raises `NameError` and every registration that supplies a device id fails
with an internal error.  This theorem evaluates the embedded source on a
re-registration of an existing `(project, device_id)` pair. -/
theorem c6_reregistration_crashes_instead_of_returning_existing_row :
    c6DB.devices.find? (fun d => d.device_id_hash == some (hash_token c6DeviceId)) =
      some c6ExistingDevice ∧
    register_device c6DB
      { name := "dev-6", device_id := some c6DeviceId, project_name := "P",
        user_agent := "ua", working_directory := "/w" } = .error (.nameError "device_id") :=
  ⟨rfl, rfl⟩

/-- Store exercised by the claim C7 evaluation: the project carries the
auto-approval pattern `prod`. -/
def c7DB : DB :=
  { projects := [{ id := "p7id", name := "Q", auto_approval_tag_pattern := some "prod" }] }

/-- Claim C7: a new device whose tags match the project's auto-approval
pattern is claimed to be created directly in authorized state.  The code
never reaches the auto-approval logic: the local `device_id` is only
assigned in dead code (src/server/api/routes/devices.py lines 61-68), so
line 72 raises `NameError` before the tag matching at lines 110-139 can run,
and no device row — authorized or pending — is ever created.  This theorem
evaluates the embedded source on a registration whose tag `production`
contains the pattern `prod` (the match the claim describes), yet the call
fails with the internal error and the store gains no device. -/
theorem c7_auto_approval_unreachable :
    containsSub (strLower "production") (strLower "prod") = true ∧
    register_device c7DB
      { name := "dev-7", device_id := some (strRepeat 'b' 32), project_name := "Q",
        user_agent := "ua", working_directory := "/w", tags := ["production"] } =
      .error (.nameError "device_id") :=
  ⟨rfl, rfl⟩

/-- Claim C10: the device-status read requires no credential — the embedded
route takes none — and for every store it either returns a stored device or
fails with NotFound; it never produces an authentication or access error.
When the project resolves by name and the device by id, the full stored row
is returned. -/
theorem c10_get_device_unauthenticated_total :
    (∀ (db : DB) (pn did : String),
        (∃ d, get_device_route db pn did = .ok d) ∨
        (∃ msg, get_device_route db pn did = .error (.notFound msg))) ∧
    (∀ (db : DB) (pn did : String) (p : ProjectRow) (d : DeviceRow),
        db.projects.find? (fun q => q.name == pn) = some p →
        db.devices.find? (fun e => e.id == did && e.project_id == p.id) = some d →
        get_device_route db pn did = .ok d) := by
  constructor
  · intro db pn did
    cases hp : db.projects.find? (fun q => q.name == pn) with
    | none =>
      exact Or.inr ⟨"Project not found", by simp [get_device_route, get_device_by_id_no_auth, hp]⟩
    | some p =>
      cases hd : db.devices.find? (fun e => e.id == did && e.project_id == p.id) with
      | none =>
        exact Or.inr ⟨"Device not found",
          by simp [get_device_route, get_device_by_id_no_auth, hp, hd]⟩
      | some d =>
        exact Or.inl ⟨d, by simp [get_device_route, get_device_by_id_no_auth, hp, hd]⟩
  · intro db pn did p d hp hd
    simp [get_device_route, get_device_by_id_no_auth, hp, hd]

/-- Store exercised by the claim C10 witness. -/
def c10DB : DB :=
  { projects := [{ id := "pXid", name := "proj" }],
    devices := [{ id := "dev1", project_id := "pXid", name := "laptop",
                  device_info := some "os-and-ip", status := "authorized",
                  authorized_at := some 7, authorized_by := some "master_token:m1" }] }

/-- Witness for claim C10 at a concrete store: the unauthenticated read
returns the full stored row. -/
theorem c10_witness :
    get_device_route c10DB "proj" "dev1" =
      .ok { id := "dev1", project_id := "pXid", name := "laptop",
            device_info := some "os-and-ip", status := "authorized",
            authorized_at := some 7, authorized_by := some "master_token:m1" } :=
  c10_get_device_unauthenticated_total.2 c10DB "proj" "dev1"
    { id := "pXid", name := "proj" }
    { id := "dev1", project_id := "pXid", name := "laptop",
      device_info := some "os-and-ip", status := "authorized",
      authorized_at := some 7, authorized_by := some "master_token:m1" } rfl rfl

/-- Claim C9: when a protocol run exhausts the maximum wait while the device
is still pending, a held authorizing credential (one the server answers with
204 on the reject attempt) makes the protocol report final status rejected;
otherwise — no credential, or a reject attempt the server refuses — it
reports pending with an explicit note that manual action is required. -/
theorem c9_timeout_reporting :
    ∀ (env : PollEnv) (elapsed : Nat),
      pollLoop env (env.max_wait_time + 1) 0 0 = .timedOut elapsed →
      ((env.auth_token.isSome = true → env.reject_status_code = 204 →
          ∃ r, register_poll_protocol env = some r ∧ r.success = false ∧
            r.status = some "rejected") ∧
       (env.auth_token = none ∨ env.reject_status_code ≠ 204 →
          ∃ r, register_poll_protocol env = some r ∧ r.success = false ∧
            r.status = some "pending" ∧ containsSub r.note "manually" = true)) := by
  intro env elapsed h
  constructor
  · intro hsome h204
    obtain ⟨t, hat⟩ := Option.isSome_iff_exists.mp hsome
    refine ⟨{ success := false, status := some "rejected", wait_time_seconds := elapsed,
              note := "Device registration timed out. Please try again and authorize the device promptly." },
            ?_, rfl, rfl⟩
    simp [register_poll_protocol, h, hat, h204]
  · intro hcase
    rcases hcase with hnone | hne
    · refine ⟨pendingOutcome env elapsed, ?_, rfl, rfl, ?_⟩
      · simp [register_poll_protocol, h, hnone]
      · simp only [pendingOutcome, hnone, Option.isSome_none]
        decide
    · have h204f : (env.reject_status_code == 204) = false := by simpa using hne
      cases hat : env.auth_token with
      | none =>
        refine ⟨pendingOutcome env elapsed, ?_, rfl, rfl, ?_⟩
        · simp [register_poll_protocol, h, hat]
        · simp only [pendingOutcome, hat, Option.isSome_none]
          decide
      | some t =>
        refine ⟨pendingOutcome env elapsed, ?_, rfl, rfl, ?_⟩
        · simp [register_poll_protocol, h, hat, h204f]
        · simp only [pendingOutcome, hat, Option.isSome_some]
          decide

/-- Protocol run for the claim C9 witness: the device stays pending at every
poll, an authorizing credential is held, and the reject attempt succeeds. -/
def c9EnvAuthorizedReject : PollEnv :=
  { max_wait_time := 2, poll_interval := 1, auth_token := some "admin-bearer",
    polls := fun _ => .http 200 (some "pending"), reject_status_code := 204 }

/-- Protocol run for the claim C9 witness: the device stays pending and no
credential is held. -/
def c9EnvNoCredential : PollEnv :=
  { max_wait_time := 2, poll_interval := 1, auth_token := none,
    polls := fun _ => .http 200 (some "pending"), reject_status_code := 204 }

/-- Witness for claim C9 on two concrete always-pending runs: with an
authorizing credential the timeout reports rejected, without one it reports
pending and a manual-action note. -/
theorem c9_witness :
    (∃ r, register_poll_protocol c9EnvAuthorizedReject = some r ∧ r.success = false ∧
      r.status = some "rejected") ∧
    (∃ r, register_poll_protocol c9EnvNoCredential = some r ∧ r.success = false ∧
      r.status = some "pending" ∧ containsSub r.note "manually" = true) :=
  ⟨(c9_timeout_reporting c9EnvAuthorizedReject 2 (by decide)).1 rfl rfl,
   (c9_timeout_reporting c9EnvNoCredential 2 (by decide)).2 (Or.inl rfl)⟩

/-- `updateFirst` leaves any projection untouched by the update unchanged. -/
theorem updateFirst_map {α β : Type} (p : α → Bool) (f : α → α) (g : α → β)
    (hg : ∀ x, p x = true → g (f x) = g x) :
    ∀ l : List α, (updateFirst p f l).map g = l.map g
  | [] => rfl
  | x :: xs => by
    unfold updateFirst
    cases hx : p x with
    | true => simp [hg x hx]
    | false => simp [updateFirst_map p f g hg xs]

/-- The updated image of the row `find?` located is a member of the updated
list. -/
theorem find?_updateFirst_mem {α : Type} (p : α → Bool) (f : α → α) :
    ∀ (l : List α) (x : α), l.find? p = some x → f x ∈ updateFirst p f l
  | [], x, h => by simp [List.find?] at h
  | y :: ys, x, h => by
    unfold updateFirst
    cases hy : p y with
    | true =>
      simp only [List.find?, hy, Option.some.injEq] at h
      subst h
      simp
    | false =>
      simp only [List.find?, hy] at h
      simp only [hy, Bool.false_eq_true, if_neg, not_false_iff]
      exact List.mem_cons_of_mem y (find?_updateFirst_mem p f ys x h)

/-- Claim C8: storing a secret upserts by `(project_id, key)`.  When a row
with that key exists in the project, the store keeps every row identity
(ids, project bindings and keys are unchanged — in particular no row is
added), and the returned row is the stored update of the existing row: same
id and creation time, fresh ciphertext, bumped `updated_at`.  When no such
key exists, exactly one new row is appended, carrying the fresh id and the
encrypted value. -/
theorem c8_create_secret_upsert :
    ∀ (db : DB) (project : ProjectRow) (key value : String) (now : Nat) (fid : String),
      (∀ ex, db.secrets.find? (fun s => s.project_id == project.id && s.key == key) = some ex →
        (create_secret db project key value now fid).1.secrets.map
            (fun s => (s.id, s.project_id, s.key)) =
          db.secrets.map (fun s => (s.id, s.project_id, s.key)) ∧
        (create_secret db project key value now fid).2 ∈
          (create_secret db project key value now fid).1.secrets ∧
        (create_secret db project key value now fid).2.id = ex.id ∧
        (create_secret db project key value now fid).2.created_at = ex.created_at ∧
        (create_secret db project key value now fid).2.encrypted_value = encrypt_data value ∧
        (create_secret db project key value now fid).2.updated_at = now) ∧
      (db.secrets.find? (fun s => s.project_id == project.id && s.key == key) = none →
        (create_secret db project key value now fid).1.secrets =
          db.secrets ++ [(create_secret db project key value now fid).2] ∧
        (create_secret db project key value now fid).2 =
          { id := fid, project_id := project.id, key := key,
            encrypted_value := encrypt_data value, created_at := now, updated_at := now }) := by
  intro db project key value now fid
  constructor
  · intro ex hex
    simp only [create_secret, hex]
    refine ⟨updateFirst_map (fun s => s.project_id == project.id && s.key == key)
              (fun s => { s with encrypted_value := encrypt_data value, updated_at := now })
              (fun s => (s.id, s.project_id, s.key)) (fun x _ => rfl) db.secrets,
            find?_updateFirst_mem _ _ db.secrets ex hex, ?_, ?_, ?_, ?_⟩ <;> trivial
  · intro hnone
    simp [create_secret, hnone]

/-- Existing row for the claim C8 witness. -/
def c8Row : SecretRow :=
  { id := "s1", project_id := "pc8", key := "db_pass", encrypted_value := [1, 2, 3],
    created_at := 1, updated_at := 1 }

/-- Store with the existing `(pc8, db_pass)` row for the claim C8 witness. -/
def c8DBexisting : DB := { secrets := [c8Row] }

/-- Project owning the claim C8 witness rows. -/
def c8Project : ProjectRow := { id := "pc8", name := "P8" }

/-- Witness for claim C8 at concrete stores: overwriting keeps the row id and
bumps `updated_at`; storing a fresh key appends one row. -/
theorem c8_witness :
    ((create_secret c8DBexisting c8Project "db_pass" "n3w-value" 9 "s2").2.id = "s1" ∧
     (create_secret c8DBexisting c8Project "db_pass" "n3w-value" 9 "s2").2.updated_at = 9 ∧
     (create_secret c8DBexisting c8Project "db_pass" "n3w-value" 9 "s2").2.created_at = 1) ∧
    (create_secret { secrets := [] } c8Project "db_pass" "v0" 3 "s9").1.secrets =
      [] ++ [(create_secret { secrets := [] } c8Project "db_pass" "v0" 3 "s9").2] := by
  refine ⟨⟨?_, ?_, ?_⟩, ?_⟩
  · exact ((c8_create_secret_upsert c8DBexisting c8Project "db_pass" "n3w-value" 9 "s2").1
      c8Row rfl).2.2.1
  · exact ((c8_create_secret_upsert c8DBexisting c8Project "db_pass" "n3w-value" 9 "s2").1
      c8Row rfl).2.2.2.2.2
  · exact ((c8_create_secret_upsert c8DBexisting c8Project "db_pass" "n3w-value" 9 "s2").1
      c8Row rfl).2.2.2.1
  · exact ((c8_create_secret_upsert { secrets := [] } c8Project "db_pass" "v0" 3 "s9").2 rfl).1

/-! ### Findings carry the location they were scanned under -/

mutual
theorem secretsLoc : ∀ (j : Json) (db : DB) (loc fp : String) (f : ExposureFinding),
    f ∈ _check_data_for_exposed_secrets j db loc fp → f.location = loc
  | .null, db, loc, fp, f, hf => by simp [_check_data_for_exposed_secrets] at hf
  | .bool b, db, loc, fp, f, hf => by simp [_check_data_for_exposed_secrets] at hf
  | .num n, db, loc, fp, f, hf => by simp [_check_data_for_exposed_secrets] at hf
  | .str s, db, loc, fp, f, hf => by simp [_check_data_for_exposed_secrets] at hf
  | .arr es, db, loc, fp, f, hf => by
    simp only [_check_data_for_exposed_secrets] at hf
    exact secretsElemsLoc es db loc fp 0 f hf
  | .obj ms, db, loc, fp, f, hf => by
    simp only [_check_data_for_exposed_secrets] at hf
    rcases List.mem_append.mp hf with h | h
    · split at h
      · split at h
        · split at h
          · rw [List.mem_singleton.mp h]
          · simp at h
        · simp at h
      · simp at h
    · exact secretsMembersLoc ms db loc fp f h
termination_by j _ _ _ _ _ => sizeOf j

theorem secretsMembersLoc : ∀ (ms : List (String × Json)) (db : DB) (loc fp : String)
    (f : ExposureFinding), f ∈ secretsScanMembers ms db loc fp → f.location = loc
  | [], db, loc, fp, f, hf => by simp [secretsScanMembers] at hf
  | (k, v) :: rest, db, loc, fp, f, hf => by
    unfold secretsScanMembers at hf
    rcases List.mem_append.mp hf with h | h
    · split at h
      · simp at h
      · split at h
        · exact secretsLoc _ db loc _ f h
        · exact secretsLoc _ db loc _ f h
        · split at h
          · split at h
            · rw [List.mem_singleton.mp h]
            · simp at h
          · simp at h
        · simp at h
    · exact secretsMembersLoc rest db loc fp f h
termination_by ms _ _ _ _ _ => sizeOf ms

theorem secretsElemsLoc : ∀ (es : List Json) (db : DB) (loc fp : String) (i : Nat)
    (f : ExposureFinding), f ∈ secretsScanElems es db loc fp i → f.location = loc
  | [], db, loc, fp, i, f, hf => by simp [secretsScanElems] at hf
  | e :: rest, db, loc, fp, i, f, hf => by
    simp only [secretsScanElems] at hf
    rcases List.mem_append.mp hf with h | h
    · exact secretsLoc e db loc _ f h
    · exact secretsElemsLoc rest db loc fp (i + 1) f h
termination_by es _ _ _ _ _ _ => sizeOf es
end

theorem tokenFieldScanLoc : ∀ (names : List String) (ms : List (String × Json)) (db : DB)
    (loc fp : String) (f : ExposureFinding), f ∈ tokenFieldScan names ms db loc fp →
    f.location = loc
  | [], ms, db, loc, fp, f, hf => by simp [tokenFieldScan] at hf
  | n :: rest, ms, db, loc, fp, f, hf => by
    simp only [tokenFieldScan] at hf
    rcases List.mem_append.mp hf with h | h
    · split at h
      · split at h
        · split at h
          · rw [List.mem_singleton.mp h]
          · simp at h
        · simp at h
      · simp at h
    · exact tokenFieldScanLoc rest ms db loc fp f h

theorem headerTokenScanLoc (ms : List (String × Json)) (db : DB) (loc fp : String)
    (f : ExposureFinding) (hf : f ∈ headerTokenScan ms db loc fp) : f.location = loc := by
  unfold headerTokenScan at hf
  split at hf
  · dsimp only at hf
    split at hf
    · split at hf
      · simp at hf
      · split at hf
        · split at hf
          · split at hf
            · rw [List.mem_singleton.mp hf]
            · simp at hf
          · simp at hf
        · simp at hf
    · simp at hf
  · simp at hf

mutual
theorem tokensLoc : ∀ (j : Json) (db : DB) (loc fp : String) (tok : Option String)
    (f : ExposureFinding), f ∈ _check_data_for_exposed_tokens j db loc fp tok →
    f.location = loc
  | .null, db, loc, fp, tok, f, hf => by simp [_check_data_for_exposed_tokens] at hf
  | .bool b, db, loc, fp, tok, f, hf => by simp [_check_data_for_exposed_tokens] at hf
  | .num n, db, loc, fp, tok, f, hf => by simp [_check_data_for_exposed_tokens] at hf
  | .str s, db, loc, fp, tok, f, hf => by simp [_check_data_for_exposed_tokens] at hf
  | .arr es, db, loc, fp, tok, f, hf => by
    simp only [_check_data_for_exposed_tokens] at hf
    exact tokensElemsLoc es db loc fp tok 0 f hf
  | .obj ms, db, loc, fp, tok, f, hf => by
    simp only [_check_data_for_exposed_tokens] at hf
    rcases List.mem_append.mp hf with h | h
    · rcases List.mem_append.mp h with h2 | h2
      · exact tokenFieldScanLoc token_field_names ms db loc fp f h2
      · exact headerTokenScanLoc ms db loc fp f h2
    · exact tokensMembersLoc ms db loc fp tok f h
termination_by j _ _ _ _ _ _ => sizeOf j

theorem tokensMembersLoc : ∀ (ms : List (String × Json)) (db : DB) (loc fp : String)
    (tok : Option String) (f : ExposureFinding), f ∈ tokensScanMembers ms db loc fp tok →
    f.location = loc
  | [], db, loc, fp, tok, f, hf => by simp [tokensScanMembers] at hf
  | (k, v) :: rest, db, loc, fp, tok, f, hf => by
    unfold tokensScanMembers at hf
    rcases List.mem_append.mp hf with h | h
    · split at h
      · simp at h
      · split at h
        · exact tokensLoc _ db loc _ tok f h
        · exact tokensLoc _ db loc _ tok f h
        · split at h
          · split at h
            · rw [List.mem_singleton.mp h]
            · simp at h
          · simp at h
        · simp at h
    · exact tokensMembersLoc rest db loc fp tok f h
termination_by ms _ _ _ _ _ _ => sizeOf ms

theorem tokensElemsLoc : ∀ (es : List Json) (db : DB) (loc fp : String) (tok : Option String)
    (i : Nat) (f : ExposureFinding), f ∈ tokensScanElems es db loc fp tok i →
    f.location = loc
  | [], db, loc, fp, tok, i, f, hf => by simp [tokensScanElems] at hf
  | e :: rest, db, loc, fp, tok, i, f, hf => by
    simp only [tokensScanElems] at hf
    rcases List.mem_append.mp hf with h | h
    · exact tokensLoc e db loc _ tok f h
    · exact tokensElemsLoc rest db loc fp tok (i + 1) f h
termination_by es _ _ _ _ _ _ _ => sizeOf es
end

/-- Claim C4: the exposure report's `has_exposure` flag is true exactly when
at least one finding is located in the response; in particular, with no
response payload the flag is never set even though request-side findings are
retained, and every such finding is request-located. -/
theorem exists_response_of_filter (l : List ExposureFinding) :
    (!(l.filter (fun f => f.location == "response")).isEmpty) = true ↔
      ∃ f ∈ l, f.location = "response" := by
  rw [Bool.not_eq_true', List.isEmpty_eq_false, Ne, List.filter_eq_nil_iff]
  push_neg
  constructor
  · rintro ⟨f, hf, hp⟩
    exact ⟨f, hf, by simpa using hp⟩
  · rintro ⟨f, hf, hp⟩
    exact ⟨f, hf, by simpa using hp⟩

theorem c4_has_exposure_iff_response_finding (req resp : Option Json) (db : DB)
    (tok : Option String) :
    ((check_for_exposed_data req resp db tok).has_exposure = true ↔
      ∃ f ∈ (check_for_exposed_data req resp db tok).findings, f.location = "response") ∧
    (resp = none →
      (check_for_exposed_data req resp db tok).has_exposure = false ∧
      ∀ f ∈ (check_for_exposed_data req resp db tok).findings, f.location = "request") := by
  have hreq : ∀ (f : ExposureFinding),
      f ∈ (match req with
           | some j => _check_data_for_exposed_secrets j db "request" "request"
           | none => ([] : List ExposureFinding)) → f.location = "request" := by
    intro f hf
    cases req with
    | none => simp at hf
    | some j => exact secretsLoc j db "request" "request" f hf
  cases resp with
  | none =>
    constructor
    · constructor
      · intro habs
        simp only [check_for_exposed_data, List.isEmpty_nil, Bool.not_true] at habs
        exact absurd habs (by simp)
      · rintro ⟨f, hf, hfloc⟩
        simp only [check_for_exposed_data, List.append_nil] at hf
        have := hreq f hf
        rw [this] at hfloc
        simp at hfloc
    · intro _
      refine ⟨rfl, ?_⟩
      intro f hf
      simp only [check_for_exposed_data, List.append_nil] at hf
      exact hreq f hf
  | some rj =>
    constructor
    · exact exists_response_of_filter _
    · intro h
      cases h

/-- Witness for claim C4 at a concrete input: a request-only payload (here a
short string matching a secret-free store) never sets the flag. -/
theorem c4_witness :
    (check_for_exposed_data (some (Json.obj [("note", Json.str "s3cr3t")])) none
      { projects := [] } none).has_exposure = false :=
  ((c4_has_exposure_iff_response_finding (some (Json.obj [("note", Json.str "s3cr3t")])) none
      { projects := [] } none).2 rfl).1

/-- Stored secret row for the claim C2 counterexample: ciphertext of
`s3cr3t`. -/
def c2SecretRow : SecretRow :=
  { id := "sec1", project_id := "p2c", key := "db_pass",
    encrypted_value := encrypt_data "s3cr3t" }

/-- Store for the claim C2 counterexample. -/
def c2DB : DB := { projects := [{ id := "p2c", name := "PC" }], secrets := [c2SecretRow] }

/-- Unannotated response carrying the raw secret value in a field the
fallback scanner skips (6 characters, not named `value`). -/
def c2Resp : Json := .obj [("body", .obj [("note", .str "s3cr3t")])]

/-- What the pipeline persists for `c2Resp`. -/
def c2Stored : Json :=
  .obj [("body", .obj [("note", .str "s3cr3t")]), ("exposed_confidential_data", .bool false)]

/-- Claim C2 counterexample: the raw value of a stored secret (`s3cr3t`,
whose ciphertext sits in the secrets table) appears in an unannotated
response field named `note`; the fallback scanner ignores strings of at most
10 characters outside `value` fields, so the activity row is persisted with
the raw secret embedded and the exposure flag false — raw secret material
reaches durable storage, contradicting the claim as stated. -/
theorem c2_counterexample :
    c2DB.secrets = [c2SecretRow] ∧
    decrypt_data c2SecretRow.encrypted_value = some "s3cr3t" ∧
    logActivityPayloads c2DB none none (some (c2Resp, [])) = .ok (none, some c2Stored, false) ∧
    jsonContainsStr "s3cr3t" c2Stored = true :=
  ⟨rfl, encrypt_decrypt_roundtrip "s3cr3t", rfl, rfl⟩

/-- Annotated response for the claim C5 counterexample: the confidential
value sits inside an array, addressed by the bracket path `body.arr[0]`. -/
def c5Resp : Json := .obj [("body", .obj [("arr", .arr [.str "s3cr3t-value-long"])])]

/-- The single annotation of `c5Resp`. -/
def c5Meta : List ConfField :=
  [⟨"body.arr[0]", "secret", .secretHit "db_pass" (some "PC") "sec1"⟩]

/-- Claim C5 counterexample: the annotated field still holds the unredacted
plaintext — the redaction walk addresses exactly it (first conjunct) and the
value is not a redaction sentinel (second conjunct) — yet the metadata-based
scan reports `has_exposure = false`, because its path walk resolves segments
only as literal dictionary keys and cannot follow the bracket-index segment
`arr[0]`.  The first half of the claim fails at this input. -/
theorem c5_counterexample :
    setPathGo c5Resp (splitDots "body.arr[0]") =
      .ok (.obj [("body", .obj [("arr", .arr [.str "***EXPOSED***"])])]) ∧
    isAlreadyRedactedTracker "s3cr3t-value-long" = false ∧
    (check_exposure_from_metadata c5Resp c5Meta).has_exposure = false :=
  ⟨rfl, rfl, rfl⟩

/-! ### Plain dot-paths: navigation and redaction lemmas -/

/-- A path segment without bracket indexing. -/
def plainPart (p : String) : Bool := !(containsSub p "[" && containsSub p "]")

theorem bracketParse_none_of_plain (p : String) (h : plainPart p = true) :
    bracketParse p = none := by
  have hfalse : (containsSub p "[" && containsSub p "]") = false := by
    unfold plainPart at h
    rw [Bool.not_eq_true'] at h
    exact h
  unfold bracketParse
  simp [hfalse]

theorem splitCh_ne_nil (sep : Char) : ∀ cs : List Char, splitCh sep cs ≠ []
  | [] => by simp [splitCh]
  | c :: rest => by
    unfold splitCh
    cases hr : splitCh sep rest with
    | nil => exact absurd hr (splitCh_ne_nil sep rest)
    | cons h t => split <;> simp

theorem splitDots_ne_nil (s : String) : splitDots s ≠ [] := by
  unfold splitDots
  intro h
  exact splitCh_ne_nil '.' s.data (List.map_eq_nil_iff.mp h)

theorem checkNav_cons (j : Json) (p : String) (ps : List String) (v : Json)
    (h : checkNav j (p :: ps) = some v) :
    ∃ ms, j = .obj ms ∧ ∃ w, jlookup ms p = some w ∧ checkNav w ps = some v := by
  cases j with
  | obj ms =>
    refine ⟨ms, rfl, ?_⟩
    unfold checkNav at h
    cases hw : jlookup ms p with
    | none => rw [hw] at h; cases h
    | some w => rw [hw] at h; exact ⟨w, rfl, h⟩
  | null => cases h
  | bool b => cases h
  | num n => cases h
  | str s => cases h
  | arr es => cases h

theorem jlookup_setKeyFirst_self : ∀ (ms : List (String × Json)) (k : String) (v : Json),
    (jlookup ms k).isSome = true → jlookup (setKeyFirst ms k v) k = some v
  | [], k, v, h => by simp [jlookup] at h
  | (k', v') :: rest, k, v, h => by
    unfold setKeyFirst
    cases hk : k' == k with
    | true => simp [jlookup, hk]
    | false =>
      unfold jlookup at h
      rw [hk] at h
      simp only [Bool.false_eq_true, if_neg, not_false_iff] at h ⊢
      unfold jlookup
      rw [hk]
      simp only [Bool.false_eq_true, if_neg, not_false_iff]
      exact jlookup_setKeyFirst_self rest k v h

theorem jlookup_setKeyFirst_other : ∀ (ms : List (String × Json)) (k : String) (v : Json)
    (k2 : String), k2 ≠ k → jlookup (setKeyFirst ms k v) k2 = jlookup ms k2
  | [], _, _, _, _ => rfl
  | (k', v') :: rest, k, v, k2, hne => by
    unfold setKeyFirst
    cases hk : k' == k with
    | true =>
      have hk' : k' = k := by simpa using hk
      have hkne : (k' == k2) = false := by
        rw [hk']
        exact beq_eq_false_iff_ne.mpr (fun h => hne h.symm)
      simp [jlookup, hkne]
    | false =>
      simp only [Bool.false_eq_true, if_neg, not_false_iff]
      unfold jlookup
      cases hk2 : k' == k2 with
      | true => simp
      | false =>
        simp only [Bool.false_eq_true, if_neg, not_false_iff]
        exact jlookup_setKeyFirst_other rest k v k2 hne

theorem exceptMap_ok {ε α β : Type} (e : Except ε α) (f : α → β) (y : β)
    (h : Except.map f e = .ok y) : ∃ x, e = .ok x ∧ y = f x := by
  cases e with
  | error err => simp [Except.map] at h
  | ok x =>
    refine ⟨x, rfl, ?_⟩
    simp only [Except.map] at h
    cases h
    rfl

/-- Redaction acting on a plain path that the metadata walk resolves: the
walk succeeds and afterwards the path holds the sentinel. -/
theorem setPathGo_resolving : ∀ (parts : List String) (j v : Json),
    parts ≠ [] → (∀ p ∈ parts, plainPart p = true) →
    checkNav j parts = some v →
    ∃ ms', setPathGo j parts = .ok (.obj ms') ∧
      checkNav (.obj ms') parts = some (.str "***EXPOSED***")
  | [], _, _, hne, _, _ => absurd rfl hne
  | [p], j, v, _, hplain, hnav => by
    obtain ⟨ms, rfl, w, hw, _⟩ := checkNav_cons j p [] v hnav
    refine ⟨setKeyFirst ms p (.str "***EXPOSED***"), ?_, ?_⟩
    · simp only [setPathGo, bracketParse_none_of_plain p (hplain p (by simp)), hw]
    · simp only [checkNav, jlookup_setKeyFirst_self ms p _ (by simp [hw])]
  | p :: q :: qs, j, v, _, hplain, hnav => by
    obtain ⟨ms, rfl, w, hw, hwnav⟩ := checkNav_cons j p (q :: qs) v hnav
    obtain ⟨wms, rfl, _⟩ := checkNav_cons w q qs v hwnav
    obtain ⟨ms2, hset, hnav2⟩ :=
      setPathGo_resolving (q :: qs) (.obj wms) v (by simp)
        (fun r hr => hplain r (List.mem_cons_of_mem p hr)) hwnav
    refine ⟨setKeyFirst ms p (.obj ms2), ?_, ?_⟩
    · simp only [setPathGo, bracketParse_none_of_plain p (hplain p (by simp)), hw] at hset ⊢
      rw [hset]
      rfl
    · simp only [checkNav, jlookup_setKeyFirst_self ms p _ (by simp [hw])]
      exact hnav2

/-- Redacting along one plain resolving path leaves every other plain path
that resolves to a string untouched. -/
theorem setPathGo_preserves_other : ∀ (q : List String) (j j2 : Json) (g : List String)
    (sq sg : String),
    (∀ p ∈ q, plainPart p = true) → (∀ p ∈ g, plainPart p = true) →
    checkNav j q = some (.str sq) → setPathGo j q = .ok j2 →
    checkNav j g = some (.str sg) → g ≠ q →
    checkNav j2 g = some (.str sg)
  | [], j, j2, g, sq, sg, _, _, hq, hset, hg, _ => by
    have hj2 : Except.ok (ε := Unit) j = .ok j2 := by simpa [setPathGo] using hset
    injection hj2 with hj2e
    rw [← hj2e]
    exact hg
  | qp :: qtail, j, j2, g, sq, sg, hpq, hpg, hq, hset, hg, hne => by
    obtain ⟨ms, rfl, w, hw, hwq⟩ := checkNav_cons j qp qtail _ hq
    cases g with
    | nil => simp [checkNav] at hg
    | cons gp gtail =>
      obtain ⟨ms2, hobj, w2, hw2, hw2nav⟩ := checkNav_cons (.obj ms) gp gtail _ hg
      injection hobj with hmseq
      subst hmseq
      cases qtail with
      | nil =>
        have hwstr : w = .str sq := by
          simpa [checkNav] using hwq
        simp only [setPathGo, bracketParse_none_of_plain qp (hpq qp (by simp)), hw] at hset
        injection hset with hj2e
        rw [← hj2e]
        by_cases hgq : gp = qp
        · subst hgq
          rw [hw] at hw2
          injection hw2 with hw2e
          rw [← hw2e, hwstr] at hw2nav
          cases gtail with
          | nil => exact absurd rfl hne
          | cons gh grest => simp [checkNav] at hw2nav
        · simp only [checkNav, jlookup_setKeyFirst_other ms qp _ gp hgq, hw2]
          exact hw2nav
      | cons qh qrest =>
        obtain ⟨wms, rfl, _⟩ := checkNav_cons w qh qrest _ hwq
        simp only [setPathGo, bracketParse_none_of_plain qp (hpq qp (by simp)), hw] at hset
        obtain ⟨w2res, hwset, hj2⟩ := exceptMap_ok _ _ _ hset
        rw [hj2]
        by_cases hgq : gp = qp
        · subst hgq
          rw [hw] at hw2
          injection hw2 with hw2e
          rw [← hw2e] at hw2nav
          have hgt : gtail ≠ qh :: qrest := fun h => hne (by rw [h])
          have hrec := setPathGo_preserves_other (qh :: qrest) (.obj wms) w2res gtail sq sg
            (fun r hr => hpq r (List.mem_cons_of_mem _ hr))
            (fun r hr => hpg r (List.mem_cons_of_mem _ hr))
            hwq hwset hw2nav hgt
          simp only [checkNav, jlookup_setKeyFirst_self ms gp _ (by simp [hw])]
          exact hrec
        · simp only [checkNav, jlookup_setKeyFirst_other ms qp _ gp hgq, hw2]
          exact hw2nav

/-- The full redaction fold over metadata whose plain paths all resolve to
strings: it succeeds, every annotated path ends up holding the sentinel, and
any other plain string-resolving path keeps its value or gains the sentinel. -/
theorem redactFold_resolves : ∀ (meta : List ConfField) (j : Json),
    (∀ f ∈ meta, (∀ p ∈ splitDots f.path, plainPart p = true) ∧
        ∃ s, checkNav j (splitDots f.path) = some (.str s)) →
    ∃ j', redactFold j meta = .ok j' ∧
      (∀ f ∈ meta, checkNav j' (splitDots f.path) = some (.str "***EXPOSED***")) ∧
      (∀ q, (∀ p ∈ q, plainPart p = true) → ∀ s, checkNav j q = some (.str s) →
          checkNav j' q = some (.str s) ∨ checkNav j' q = some (.str "***EXPOSED***")) ∧
      (meta ≠ [] → ∃ ms', j' = .obj ms')
  | [], j, _ => ⟨j, rfl, by simp, fun q _ s h => Or.inl h, fun h => absurd rfl h⟩
  | f :: rest, j, h => by
    obtain ⟨hplainf, s0, hres⟩ := h f (List.mem_cons_self f rest)
    obtain ⟨ms1, hset, hsent⟩ :=
      setPathGo_resolving (splitDots f.path) j (.str s0) (splitDots_ne_nil _) hplainf hres
    have hrest : ∀ g ∈ rest, (∀ p ∈ splitDots g.path, plainPart p = true) ∧
        ∃ s, checkNav (.obj ms1) (splitDots g.path) = some (.str s) := by
      intro g hg
      obtain ⟨hplaing, sg, hgres⟩ := h g (List.mem_cons_of_mem f hg)
      refine ⟨hplaing, ?_⟩
      by_cases heq : splitDots g.path = splitDots f.path
      · exact ⟨"***EXPOSED***", by rw [heq]; exact hsent⟩
      · exact ⟨sg, setPathGo_preserves_other (splitDots f.path) j (.obj ms1)
          (splitDots g.path) s0 sg hplainf hplaing hres hset hgres heq⟩
    obtain ⟨j2, hfold2, hall2, hpres2, hobj2⟩ := redactFold_resolves rest (.obj ms1) hrest
    refine ⟨j2, ?_, ?_, ?_, ?_⟩
    · show redactFold j (f :: rest) = .ok j2
      simp only [redactFold, hset]
      exact hfold2
    · intro g hg
      rcases List.mem_cons.mp hg with rfl | hgrest
      · rcases hpres2 (splitDots g.path) hplainf "***EXPOSED***" hsent with h2 | h2 <;> exact h2
      · exact hall2 g hgrest
    · intro q hq s hqs
      by_cases heq : q = splitDots f.path
      · rcases hpres2 (splitDots f.path) hplainf "***EXPOSED***" hsent with h2 | h2 <;>
          exact Or.inr (by rw [heq]; exact h2)
      · have h1 : checkNav (.obj ms1) q = some (.str s) :=
          setPathGo_preserves_other (splitDots f.path) j (.obj ms1) q s0 s
            hplainf hq hres hset hqs heq
        exact hpres2 q hq s h1
    · intro _
      cases hre : rest with
      | nil =>
        subst hre
        have : Except.ok (ε := Unit) (Json.obj ms1) = .ok j2 := by
          simpa [redactFold] using hfold2
        injection this with hj2e
        exact ⟨ms1, hj2e.symm⟩
      | cons r rs => exact hobj2 (by simp [hre])

/-- A metadata field whose plain walk reaches a non-redacted string forces a
finding. -/
theorem metaFindings_ne_of_raw : ∀ (meta : List ConfField) (rj : Json) (f : ConfField),
    f ∈ meta → ∀ s, checkNav rj (splitDots f.path) = some (.str s) →
    isAlreadyRedactedTracker s = false → metaFindings rj meta ≠ []
  | [], _, _, hmem, _, _, _ => by simp at hmem
  | f0 :: rest, rj, f, hmem, s, hs, hraw => by
    rcases List.mem_cons.mp hmem with rfl | htail
    · unfold metaFindings
      rw [hs]
      simp [hraw]
    · unfold metaFindings
      intro hnil
      rcases List.append_eq_nil.mp hnil with ⟨_, htl⟩
      exact metaFindings_ne_of_raw rest rj f htail s hs hraw htl

/-- When every annotated walk that reaches a string reaches an
already-redacted one, the metadata scan finds nothing. -/
theorem metaFindings_nil_of_redacted : ∀ (meta : List ConfField) (rj : Json),
    (∀ f ∈ meta, ∀ s, checkNav rj (splitDots f.path) = some (.str s) →
        isAlreadyRedactedTracker s = true) →
    metaFindings rj meta = []
  | [], _, _ => rfl
  | f0 :: rest, rj, h => by
    unfold metaFindings
    rw [metaFindings_nil_of_redacted rest rj (fun g hg => h g (List.mem_cons_of_mem f0 hg))]
    cases hs : checkNav rj (splitDots f0.path) with
    | none => simp
    | some w =>
      cases w with
      | str s =>
        simp [h f0 (List.mem_cons_self f0 rest) s hs]
      | null => simp
      | bool b => simp
      | num n => simp
      | arr es => simp
      | obj ms => simp

/-- Claim C5 (amended): for every response whose annotations all use plain
dot-paths (literal dictionary keys, no bracket-index segments — the
metadata scanner cannot follow those, see the counterexample) that resolve
to string fields, if some annotated field still holds an unredacted
plaintext string then the metadata-based scan reports `has_exposure = true`,
redaction succeeds replacing every annotated field with the sentinel, and
re-scanning the redacted response reports `has_exposure = false`. -/
theorem c5_amended_annotated_scan_redact_rescan :
    ∀ (rj : Json) (meta : List ConfField),
    (∀ f ∈ meta, (∀ p ∈ splitDots f.path, plainPart p = true) ∧
        ∃ s, checkNav rj (splitDots f.path) = some (.str s)) →
    (∃ f ∈ meta, ∃ s, checkNav rj (splitDots f.path) = some (.str s) ∧
        isAlreadyRedactedTracker s = false) →
    (check_exposure_from_metadata rj meta).has_exposure = true ∧
    ∃ rj', redact_exposed_values rj meta = .ok rj' ∧
      (∀ f ∈ meta, checkNav rj' (splitDots f.path) = some (.str "***EXPOSED***")) ∧
      (check_exposure_from_metadata rj' meta).has_exposure = false := by
  intro rj meta hall hraw
  obtain ⟨f0, hf0mem, s0, hs0, hs0raw⟩ := hraw
  constructor
  · unfold check_exposure_from_metadata
    cases hmf : metaFindings rj meta with
    | nil => exact absurd hmf (metaFindings_ne_of_raw meta rj f0 hf0mem s0 hs0 hs0raw)
    | cons a l => simp [hmf]
  · obtain ⟨j', hfold, hallsent, _, _⟩ := redactFold_resolves meta rj hall
    refine ⟨j', ?_, hallsent, ?_⟩
    · cases meta with
      | nil => simp at hf0mem
      | cons m ms =>
        unfold redact_exposed_values
        simpa using hfold
    · unfold check_exposure_from_metadata
      rw [metaFindings_nil_of_redacted meta j' ?_]
      · simp
      · intro g hg s hgs
        rw [hallsent g hg] at hgs
        injection hgs with he
        injection he with he2
        rw [← he2]
        rfl

/-- Annotated response for the claim C5 witness. -/
def c5wResp : Json := .obj [("body", .obj [("value", .str "super-secret-plaintext")])]

/-- Annotation of `c5wResp`: a plain dot-path naming the secret field. -/
def c5wField : ConfField := ⟨"body.value", "secret", .secretHit "db_pass" (some "PC") "sec1"⟩

/-- The redacted form of `c5wResp`. -/
def c5wRedacted : Json := .obj [("body", .obj [("value", .str "***EXPOSED***")])]

/-- Witness for claim C5 at a concrete annotated response: the scan flags the
plaintext, redaction replaces it with the sentinel, and the re-scan is
clean. -/
theorem c5_witness :
    (check_exposure_from_metadata c5wResp [c5wField]).has_exposure = true ∧
    redact_exposed_values c5wResp [c5wField] = .ok c5wRedacted ∧
    (check_exposure_from_metadata c5wRedacted [c5wField]).has_exposure = false := by
  have h := c5_amended_annotated_scan_redact_rescan c5wResp [c5wField]
    (by
      intro f hf
      have hfe : f = c5wField := by simpa using hf
      subst hfe
      exact ⟨by decide, "super-secret-plaintext", rfl⟩)
    ⟨c5wField, by simp, "super-secret-plaintext", rfl, rfl⟩
  exact ⟨h.1, rfl, rfl⟩

/-! ### The stored response after summarisation and flag insertion -/

theorem updateFirst_mem_or {α : Type} (p : α → Bool) (f : α → α) :
    ∀ (l : List α) (y : α), y ∈ updateFirst p f l → (∃ x ∈ l, y = f x) ∨ y ∈ l
  | [], y, h => by simp [updateFirst] at h
  | x :: xs, y, h => by
    unfold updateFirst at h
    by_cases hx : p x = true
    · rw [if_pos hx] at h
      rcases List.mem_cons.mp h with rfl | htl
      · exact Or.inl ⟨x, List.mem_cons_self x xs, rfl⟩
      · exact Or.inr (List.mem_cons_of_mem x htl)
    · rw [if_neg hx] at h
      rcases List.mem_cons.mp h with rfl | htl
      · exact Or.inr (List.mem_cons_self y xs)
      · rcases updateFirst_mem_or p f xs y htl with ⟨z, hz, hzy⟩ | hmem
        · exact Or.inl ⟨z, List.mem_cons_of_mem x hz, hzy⟩
        · exact Or.inr (List.mem_cons_of_mem x hmem)

theorem jlookup_truncListVals_nonarr : ∀ (bs : List (String × Json)) (p : String) (w : Json),
    jlookup bs p = some w → (∀ es, w ≠ .arr es) →
    jlookup (truncListVals bs) p = some w
  | [], p, w, h, _ => by simp [jlookup] at h
  | (k, v) :: rest, p, w, h, hna => by
    unfold jlookup at h
    unfold truncListVals jlookup
    cases hk : k == p with
    | true =>
      have keq : k = p := by simpa using hk
      subst keq
      simp at h ⊢
      rw [← h]
      cases v with
      | arr es => exact absurd h.symm (hna es)
      | null => rfl
      | bool b => rfl
      | num n => rfl
      | str s2 => rfl
      | obj ms => rfl
    | false =>
      rw [hk] at h
      simp only [Bool.false_eq_true, if_neg, not_false_iff] at h ⊢
      exact jlookup_truncListVals_nonarr rest p w h hna

theorem checkNav_truncListVals (q : List String) (bs : List (String × Json)) (s : String)
    (h : checkNav (.obj bs) q = some (.str s)) :
    checkNav (.obj (truncListVals bs)) q = some (.str s) := by
  cases q with
  | nil => simp [checkNav] at h
  | cons p ps =>
    obtain ⟨ms0, hms0, w, hw, hwnav⟩ := checkNav_cons (.obj bs) p ps _ h
    injection hms0 with he
    subst he
    have hwna : ∀ es, w ≠ Json.arr es := by
      intro es hwe
      subst hwe
      cases ps with
      | nil => simp [checkNav] at hwnav
      | cons a b => simp [checkNav] at hwnav
    have hl := jlookup_truncListVals_nonarr bs p w hw hwna
    simp only [checkNav, hl]
    exact hwnav

/-- Summarisation never disturbs a path that resolves to a string. -/
theorem checkNav_summarizeBody (j : Json) (q : List String) (s : String)
    (h : checkNav j q = some (.str s)) :
    checkNav (summarizeBody j) q = some (.str s) := by
  cases j with
  | obj ms =>
    cases q with
    | nil => simp [checkNav] at h
    | cons p ps =>
      obtain ⟨ms0, hms0, w, hw, hwnav⟩ := checkNav_cons (.obj ms) p ps _ h
      injection hms0 with he
      subst he
      unfold summarizeBody
      dsimp only
      cases hb : jlookup ms "body" with
      | none => exact h
      | some b =>
        dsimp only
        by_cases hfb : jsonFalsy b = true
        · rw [if_pos hfb]
          exact h
        · rw [if_neg hfb]
          by_cases hpb : p = "body"
          · subst hpb
            rw [hb] at hw
            injection hw with hwe
            subst hwe
            cases b with
            | arr es =>
              exfalso
              cases ps with
              | nil => simp [checkNav] at hwnav
              | cons a bq => simp [checkNav] at hwnav
            | obj bs =>
              simp only [checkNav, jlookup_setKeyFirst_self ms "body" _ (by simp [hb])]
              exact checkNav_truncListVals ps bs s hwnav
            | null => exact h
            | bool bb => exact h
            | num n => exact h
            | str sv => exact h
          · cases b with
            | arr es =>
              dsimp only
              by_cases hlen : es.length > 10
              · rw [if_pos hlen]
                simp only [checkNav, jlookup_setKeyFirst_other ms "body" _ p hpb, hw]
                exact hwnav
              · rw [if_neg hlen]
                exact h
            | obj bs =>
              simp only [checkNav, jlookup_setKeyFirst_other ms "body" _ p hpb, hw]
              exact hwnav
            | null => exact h
            | bool bb => exact h
            | num n => exact h
            | str sv => exact h
  | null => exact h
  | bool b => exact h
  | num n => exact h
  | str sv => exact h
  | arr es =>
    cases q with
    | nil => simp [checkNav] at h
    | cons a b => simp [checkNav] at h

/-- Summarisation of a dict stays a dict. -/
theorem summarizeBody_obj (ms : List (String × Json)) :
    ∃ ms2, summarizeBody (.obj ms) = .obj ms2 := by
  unfold summarizeBody
  dsimp only
  cases hb : jlookup ms "body" with
  | none => exact ⟨ms, rfl⟩
  | some b =>
    dsimp only
    by_cases hfb : jsonFalsy b = true
    · rw [if_pos hfb]
      exact ⟨ms, rfl⟩
    · rw [if_neg hfb]
      cases b with
      | arr es =>
        dsimp only
        by_cases hlen : es.length > 10
        · rw [if_pos hlen]
          exact ⟨_, rfl⟩
        · rw [if_neg hlen]
          exact ⟨ms, rfl⟩
      | obj bs => exact ⟨_, rfl⟩
      | null => exact ⟨ms, rfl⟩
      | bool bb => exact ⟨ms, rfl⟩
      | num n => exact ⟨ms, rfl⟩
      | str sv => exact ⟨ms, rfl⟩

theorem jlookup_append_right : ∀ (ms : List (String × Json)) (k : String) (v : Json),
    jlookup ms k = none → jlookup (ms ++ [(k, v)]) k = some v
  | [], k, v, _ => by simp [jlookup]
  | (k', v') :: rest, k, v, h => by
    unfold jlookup at h
    show jlookup ((k', v') :: (rest ++ [(k, v)])) k = some v
    unfold jlookup
    cases hk : k' == k with
    | true =>
      rw [hk] at h
      simp at h
    | false =>
      rw [hk] at h
      simp only [Bool.false_eq_true, if_neg, not_false_iff] at h ⊢
      exact jlookup_append_right rest k v h

theorem jlookup_append_other : ∀ (ms : List (String × Json)) (k : String) (v : Json)
    (p : String), p ≠ k → jlookup (ms ++ [(k, v)]) p = jlookup ms p
  | [], k, v, p, hne => by
    simp only [List.nil_append, jlookup]
    rw [beq_eq_false_iff_ne.mpr (fun h => hne h.symm)]
    rfl
  | (k', v') :: rest, k, v, p, hne => by
    show jlookup ((k', v') :: (rest ++ [(k, v)])) p = jlookup ((k', v') :: rest) p
    unfold jlookup
    cases hk : k' == p with
    | true => simp
    | false =>
      simp only [Bool.false_eq_true, if_neg, not_false_iff]
      exact jlookup_append_other rest k v p hne

theorem jlookup_setKeyAppend_other (ms : List (String × Json)) (k : String) (v : Json)
    (p : String) (hne : p ≠ k) : jlookup (setKeyAppend ms k v) p = jlookup ms p := by
  unfold setKeyAppend
  by_cases hs : (jlookup ms k).isSome = true
  · rw [if_pos hs]
    exact jlookup_setKeyFirst_other ms k v p hne
  · rw [if_neg hs]
    exact jlookup_append_other ms k v p hne

theorem jlookup_setKeyAppend_self (ms : List (String × Json)) (k : String) (v : Json) :
    jlookup (setKeyAppend ms k v) k = some v := by
  unfold setKeyAppend
  by_cases hs : (jlookup ms k).isSome = true
  · rw [if_pos hs]
    exact jlookup_setKeyFirst_self ms k v hs
  · rw [if_neg hs]
    apply jlookup_append_right
    cases hl : jlookup ms k with
    | none => rfl
    | some w => rw [hl] at hs; simp at hs

/-- A string resolved in the stored response was already resolved, with the
same value, before the exposure flag was recorded. -/
theorem checkNav_finalize_str (ms : List (String × Json)) (flag : Bool) (q : List String)
    (s : String) (h : checkNav (finalizeResponse (.obj ms) flag) q = some (.str s)) :
    checkNav (.obj ms) q = some (.str s) := by
  cases q with
  | nil => simp [finalizeResponse, checkNav] at h
  | cons p ps =>
    unfold finalizeResponse at h
    by_cases hp : p = "exposed_confidential_data"
    · subst hp
      rw [checkNav, jlookup_setKeyAppend_self] at h
      cases ps with
      | nil => simp [checkNav] at h
      | cons a b => simp [checkNav] at h
    · rw [checkNav, jlookup_setKeyAppend_other ms _ _ p hp] at h
      rw [checkNav]
      exact h

/-- Recording the exposure flag preserves any resolution whose head key is not
the flag key. -/
theorem checkNav_finalize_fwd (ms : List (String × Json)) (flag : Bool) (p : String)
    (ps : List String) (w : Json) (hp : p ≠ "exposed_confidential_data")
    (h : checkNav (.obj ms) (p :: ps) = some w) :
    checkNav (finalizeResponse (.obj ms) flag) (p :: ps) = some w := by
  unfold finalizeResponse
  simp only [checkNav] at h ⊢
  rw [jlookup_setKeyAppend_other ms "exposed_confidential_data" (.bool flag) p hp]
  exact h

/-- Claim C2 (amended, see the counterexample for the unannotated fallback
gap): (a) `create_secret` preserves the invariant that every row of the
secrets table holds a ciphertext produced by `encrypt_data` — the table never
holds a raw value; (b) `create_token`, (c) `create_master_token` and (d)
`rotate_master_token` preserve the invariant that every row of the two token
tables holds a `hash_token` digest in its hash column — the tables never hold
a raw credential; (e) for every activity-log run over a response annotated
with a non-empty confidential-field list whose paths are plain dot-paths,
avoid the reserved flag key, and resolve to string fields, the response
payload the logger stores holds the fixed sentinel at every annotated path:
each annotated confidential value is redacted before the row is written. -/
theorem c2_amended_ciphertext_and_annotated_redaction :
    (∀ (db : DB) (project : ProjectRow) (key value : String) (now : Nat) (fid : String),
      (∀ r ∈ db.secrets, ∃ v, r.encrypted_value = encrypt_data v) →
      ∀ r ∈ (create_secret db project key value now fid).1.secrets,
        ∃ v, r.encrypted_value = encrypt_data v) ∧
    (∀ (db : DB) (project : ProjectRow) (token_str fid : String),
      (∀ r ∈ db.tokens, ∃ t, r.token_hash = hash_token t) →
      ∀ r ∈ (create_token db project token_str fid).1.tokens,
        ∃ t, r.token_hash = hash_token t) ∧
    (∀ (db : DB) (token_str fid : String),
      (∀ r ∈ db.master_tokens, ∃ t, r.token_hash = hash_token t) →
      ∀ r ∈ (create_master_token db token_str fid).1.master_tokens,
        ∃ t, r.token_hash = hash_token t) ∧
    (∀ (db : DB) (tid token_str fid : String) (db2 : DB) (row : MasterTokenRow),
      rotate_master_token db tid token_str fid = .ok (db2, row) →
      (∀ r ∈ db.master_tokens, ∃ t, r.token_hash = hash_token t) →
      ∀ r ∈ db2.master_tokens, ∃ t, r.token_hash = hash_token t) ∧
    (∀ (db : DB) (tok : Option String) (req : Option Json) (rj : Json)
        (meta : List ConfField) (reqS : Option Json) (respS : Json) (flag : Bool),
      meta ≠ [] →
      (∀ f ∈ meta, (∀ p ∈ splitDots f.path, plainPart p = true) ∧
          (∀ p ∈ splitDots f.path, p ≠ "exposed_confidential_data") ∧
          ∃ s, checkNav rj (splitDots f.path) = some (.str s)) →
      logActivityPayloads db tok req (some (rj, meta)) = .ok (reqS, some respS, flag) →
      ∀ f ∈ meta, checkNav respS (splitDots f.path) = some (.str "***EXPOSED***")) := by
  refine ⟨?_, ?_, ?_, ?_, ?_⟩
  · intro db project key value now fid hinv r hr
    cases hfind : db.secrets.find? (fun s => s.project_id == project.id && s.key == key) with
    | some ex =>
      simp only [create_secret, hfind] at hr
      rcases updateFirst_mem_or _ _ db.secrets r hr with ⟨x, _, rfl⟩ | hmem
      · exact ⟨value, rfl⟩
      · exact hinv r hmem
    | none =>
      simp only [create_secret, hfind] at hr
      rcases List.mem_append.mp hr with hmem | hnew
      · exact hinv r hmem
      · rw [List.mem_singleton] at hnew
        subst hnew
        exact ⟨value, rfl⟩
  · intro db project token_str fid hinv r hr
    simp only [create_token] at hr
    rcases List.mem_append.mp hr with hmem | hnew
    · exact hinv r hmem
    · rw [List.mem_singleton] at hnew
      subst hnew
      exact ⟨token_str, rfl⟩
  · intro db token_str fid hinv r hr
    simp only [create_master_token] at hr
    rcases List.mem_append.mp hr with hmem | hnew
    · exact hinv r hmem
    · rw [List.mem_singleton] at hnew
      subst hnew
      exact ⟨token_str, rfl⟩
  · intro db tid token_str fid db2 row hrot hinv r hr
    cases hfind : db.master_tokens.find? (fun m => m.id == tid) with
    | none => simp [rotate_master_token, hfind] at hrot
    | some old =>
      simp only [rotate_master_token, hfind, Except.ok.injEq, Prod.mk.injEq] at hrot
      obtain ⟨hdb2, _⟩ := hrot
      rw [← hdb2] at hr
      dsimp only at hr
      rcases List.mem_append.mp hr with hmem | hnew
      · exact hinv r (List.mem_of_mem_filter hmem)
      · rw [List.mem_singleton] at hnew
        subst hnew
        exact ⟨token_str, rfl⟩
  · intro db tok req rj meta reqS respS flag hne hall hrun f hf
    obtain ⟨hplain, hkeys, s0, hres0⟩ := hall f hf
    cases hq : splitDots f.path with
    | nil => exact absurd hq (splitDots_ne_nil _)
    | cons p ps =>
    rw [hq] at hres0
    have hp : p ≠ "exposed_confidential_data" := hkeys p (by rw [hq]; exact List.mem_cons_self p ps)
    cases rj with
    | null => simp [checkNav] at hres0
    | bool b => simp [checkNav] at hres0
    | num n => simp [checkNav] at hres0
    | str sv => simp [checkNav] at hres0
    | arr es => simp [checkNav] at hres0
    | obj ms =>
    have hmne : meta.isEmpty = false := by
      cases meta with
      | nil => exact absurd rfl hne
      | cons a t => rfl
    simp only [logActivityPayloads] at hrun
    by_cases hms : (ms : List (String × Json)).isEmpty = true
    · rw [List.isEmpty_iff] at hms
      subst hms
      simp [checkNav, jlookup] at hres0
    · rw [if_neg hms] at hrun
      simp only [hmne, Bool.not_false, if_true, Bool.and_true] at hrun
      cases hflag : meta.any (loggerFieldExposed (.obj ms)) with
      | false =>
        rw [hflag] at hrun
        simp only [Bool.false_eq_true, if_false] at hrun
        simp only [Except.ok.injEq, Prod.mk.injEq, Option.some.injEq] at hrun
        obtain ⟨_, hrespS, _⟩ := hrun
        have hfe : loggerFieldExposed (.obj ms) f = false := by
          rw [List.any_eq_false] at hflag
          simpa using hflag f hf
        unfold loggerFieldExposed at hfe
        rw [hq, hres0] at hfe
        have hs0 : s0 = "***EXPOSED***" := by simpa using hfe
        subst hs0
        obtain ⟨ms2, hms2⟩ := summarizeBody_obj ms
        have hsum : checkNav (summarizeBody (.obj ms)) (p :: ps) =
            some (.str "***EXPOSED***") :=
          checkNav_summarizeBody (.obj ms) (p :: ps) _ hres0
        rw [hms2] at hsum
        rw [← hrespS, hms2]
        exact checkNav_finalize_fwd ms2 false p ps _ hp hsum
      | true =>
        rw [hflag] at hrun
        simp only [if_true] at hrun
        have hall0 : ∀ g ∈ meta, (∀ q ∈ splitDots g.path, plainPart q = true) ∧
            ∃ s, checkNav (.obj ms) (splitDots g.path) = some (.str s) :=
          fun g hg => ⟨(hall g hg).1, (hall g hg).2.2⟩
        obtain ⟨j', hfold, hallsent, _, hobj⟩ := redactFold_resolves meta (.obj ms) hall0
        have hred : redact_exposed_values (.obj ms) meta = .ok j' := by
          unfold redact_exposed_values
          rw [hmne]
          simpa using hfold
        rw [hred] at hrun
        simp only [Except.ok.injEq, Prod.mk.injEq, Option.some.injEq] at hrun
        obtain ⟨_, hrespS, _⟩ := hrun
        obtain ⟨ms1, hj1⟩ := hobj hne
        subst hj1
        have hsent : checkNav (.obj ms1) (p :: ps) = some (.str "***EXPOSED***") := by
          rw [← hq]
          exact hallsent f hf
        obtain ⟨ms2, hms2⟩ := summarizeBody_obj ms1
        have hsum : checkNav (summarizeBody (.obj ms1)) (p :: ps) =
            some (.str "***EXPOSED***") :=
          checkNav_summarizeBody (.obj ms1) (p :: ps) _ hsent
        rw [hms2] at hsum
        rw [← hrespS, hms2]
        exact checkNav_finalize_fwd ms2 true p ps _ hp hsum

/-- Project used by the claim C2 witness. -/
def c2wProject : ProjectRow := { id := "pw", name := "PW" }

/-- A secrets-table row already holding a ciphertext. -/
def c2wRow : SecretRow :=
  { id := "s0", project_id := "pw", key := "old_key",
    encrypted_value := encrypt_data "old", created_at := 1, updated_at := 1 }

/-- A master-token row already holding a hash. -/
def c2wMaster : MasterTokenRow :=
  { id := "m0", name := mask_token "boot-master-token-000",
    token_hash := hash_token "boot-master-token-000", is_init_token := true }

/-- Database for the claim C2 witness. -/
def c2wDB : DB :=
  { projects := [c2wProject], master_tokens := [c2wMaster], secrets := [c2wRow] }

/-- The master-token row written by the rotation in the claim C2 witness. -/
def c2wRotRow : MasterTokenRow :=
  { id := "m2", name := mask_token "rotated-master-token-01",
    token_hash := hash_token "rotated-master-token-01" }

/-- The database after the rotation in the claim C2 witness. -/
def c2wRotDB : DB :=
  { projects := [c2wProject], master_tokens := [c2wRotRow], secrets := [c2wRow] }

/-- Annotated response still carrying a raw confidential value. -/
def c2wRespRaw : Json := .obj [("body", .obj [("value", .str "raw-secret-material")])]

/-- Annotation of `c2wRespRaw`. -/
def c2wMeta : ConfField := ⟨"body.value", "secret", .secretHit "api_key" (some "PW") "sid"⟩

/-- The response payload the logger stores for `c2wRespRaw`. -/
def c2wStored : Json :=
  .obj [("body", .obj [("value", .str "***EXPOSED***")]),
        ("exposed_confidential_data", .bool true)]

/-- Witness for the amended claim C2 at a concrete run: the logger stores the
sentinel in place of the annotated raw value, overwriting a secret stores the
ciphertext of the new value, and each token writer stores the hash of the new
credential. -/
theorem c2_amended_witness :
    logActivityPayloads c2wDB none none (some (c2wRespRaw, [c2wMeta]))
        = .ok (none, some c2wStored, true) ∧
    checkNav c2wStored (splitDots c2wMeta.path) = some (.str "***EXPOSED***") ∧
    (create_secret c2wDB c2wProject "old_key" "newer" 9 "s9").2.encrypted_value
        = encrypt_data "newer" ∧
    (create_token c2wDB c2wProject "fresh-project-token-0001" "t1").2.token_hash
        = hash_token "fresh-project-token-0001" ∧
    (create_master_token c2wDB "fresh-master-token-0001" "m1").2.token_hash
        = hash_token "fresh-master-token-0001" ∧
    rotate_master_token c2wDB "m0" "rotated-master-token-01" "m2"
        = .ok (c2wRotDB, c2wRotRow) := by
  refine ⟨rfl, ?_, rfl, rfl, rfl, rfl⟩
  exact c2_amended_ciphertext_and_annotated_redaction.2.2.2.2 c2wDB none none c2wRespRaw
    [c2wMeta] none c2wStored true (by simp)
    (by
      intro g hg
      have hge : g = c2wMeta := by simpa using hg
      subst hge
      exact ⟨by decide, by decide, "raw-secret-material", rfl⟩)
    rfl c2wMeta (by simp)

end Vaulty
